import Mathlib

/-!
# KD Chart: coordinate-plane zoom interaction and measure resolution

A shallow embedding of

* `src/src/KDChart/KDChartAbstractCoordinatePlane.cpp`
  (the rubber-band zoom handlers of `AbstractCoordinatePlane`), and
* `src/src/KDChart/KDChartMeasure.cpp`
  (`Measure::calculatedValue`, `Measure::sizeOfArea`, `GlobalMeasureScaling`).

Conventions of the embedding.

* `int` is `Int` (pixel coordinates; wrap-around is not modelled).
* `qreal` is `ℚ`: arithmetic is exact, so rounding of `double` is not modelled.
  Statements about computed zoom values therefore either repeat the expressions
  of the code, or concern values that `double` computes exactly, or leave room
  for the rounding.
* A nullable pointer is an `Option`; `nullptr` is `none`.
* `QStack` is a `List` whose head is the top of the stack.
* The handlers of the attached diagrams are virtual methods defined outside
  these files; the embedding records which diagrams an event is forwarded to
  and assumes that they leave the state of the plane alone.
-/

namespace KDChart

/-! ## Qt value types -/

/-- Qt point with integer coordinates. -/
structure QPoint where
  x : Int
  y : Int
deriving DecidableEq, Repr

/-- Qt point with `qreal` coordinates. -/
structure QPointF where
  x : ℚ
  y : ℚ
deriving DecidableEq

/-- Qt size with integer extent; the default `QSize()` is `(-1, -1)`. -/
structure QSize where
  wd : Int
  ht : Int
deriving DecidableEq, Repr

/-- The default constructed `QSize()`, an invalid size. -/
def QSize.default : QSize := ⟨-1, -1⟩

/-- Qt size with `qreal` extent; the default `QSizeF()` is `(-1, -1)`. -/
structure QSizeF where
  wd : ℚ
  ht : ℚ
deriving DecidableEq

/-- The default constructed `QSizeF()`, an invalid size. -/
def QSizeF.default : QSizeF := ⟨-1, -1⟩

/-- Conversion `QSizeF(const QSize &)`. -/
def QSize.toQSizeF (s : QSize) : QSizeF := ⟨(s.wd : ℚ), (s.ht : ℚ)⟩

/-- Qt rectangle. As in Qt it is stored by its top-left corner `(x1, y1)` and its
inclusive bottom-right corner `(x2, y2)`. -/
structure QRect where
  x1 : Int
  y1 : Int
  x2 : Int
  y2 : Int
deriving DecidableEq, Repr

namespace QRect

/-- The default constructed `QRect()`: the null rectangle `(0, 0, -1, -1)`. -/
def null : QRect := ⟨0, 0, -1, -1⟩

/-- Constructor `QRect(int x, int y, int width, int height)`. -/
def ofXYWH (x y w h : Int) : QRect := ⟨x, y, x + w - 1, y + h - 1⟩

/-- Constructor `QRect(const QPoint &topLeft, const QPoint &bottomRight)`. -/
def ofPoints (topLeft bottomRight : QPoint) : QRect :=
  ⟨topLeft.x, topLeft.y, bottomRight.x, bottomRight.y⟩

/-- Constructor `QRect(const QPoint &topLeft, const QSize &size)`. -/
def ofPointSize (topLeft : QPoint) (size : QSize) : QRect :=
  ⟨topLeft.x, topLeft.y, topLeft.x + size.wd - 1, topLeft.y + size.ht - 1⟩

/-- Accessor `QRect::x()`. -/
def x (r : QRect) : Int := r.x1

/-- Accessor `QRect::y()`. -/
def y (r : QRect) : Int := r.y1

/-- Accessor `QRect::width()`, which is `x2 - x1 + 1`. -/
def width (r : QRect) : Int := r.x2 - r.x1 + 1

/-- Accessor `QRect::height()`, which is `y2 - y1 + 1`. -/
def height (r : QRect) : Int := r.y2 - r.y1 + 1

/-- Accessor `QRect::size()`. -/
def size (r : QRect) : QSize := ⟨r.width, r.height⟩

/-- Predicate `QRect::isNull()`: width and height are both zero. -/
def isNull (r : QRect) : Bool := r.x2 == r.x1 - 1 && r.y2 == r.y1 - 1

/-- Method `QRect::normalized()` (Qt 5): corners are swapped on an axis whose
extent is negative. -/
def normalized (r : QRect) : QRect :=
  let xs : Int × Int := if r.x2 < r.x1 - 1 then (r.x2, r.x1) else (r.x1, r.x2)
  let ys : Int × Int := if r.y2 < r.y1 - 1 then (r.y2, r.y1) else (r.y1, r.y2)
  ⟨xs.1, ys.1, xs.2, ys.2⟩

/-- Operator `QRect::operator&`, the intersection of two rectangles; the null
rectangle when one operand is null or when they do not meet. -/
def intersected (a b : QRect) : QRect :=
  if a.isNull || b.isNull then null
  else
    let l1 := if a.x2 - a.x1 + 1 < 0 then a.x2 else a.x1
    let r1 := if a.x2 - a.x1 + 1 < 0 then a.x1 else a.x2
    let l2 := if b.x2 - b.x1 + 1 < 0 then b.x2 else b.x1
    let r2 := if b.x2 - b.x1 + 1 < 0 then b.x1 else b.x2
    if l1 > r2 || l2 > r1 then null
    else
      let t1 := if a.y2 - a.y1 + 1 < 0 then a.y2 else a.y1
      let b1 := if a.y2 - a.y1 + 1 < 0 then a.y1 else a.y2
      let t2 := if b.y2 - b.y1 + 1 < 0 then b.y2 else b.y1
      let b2 := if b.y2 - b.y1 + 1 < 0 then b.y1 else b.y2
      if t1 > b2 || t2 > b1 then null
      else ⟨max l1 l2, max t1 t2, min r1 r2, min b1 b2⟩

end QRect

/-- Function `qFloor` of `qmath.h`. -/
def qFloor (v : ℚ) : Int := Int.floor v

/-- Function `qCeil` of `qmath.h`. -/
def qCeil (v : ℚ) : Int := Int.ceil v

/-! ## Zoom parameters and the plane -/

/-- Modelled from the spec: the class `ZoomParameters` (declared in
`KDChartZoomParameters.h`, which is not among the sources) is the triple of
zoom factor X, zoom factor Y and center point. -/
structure ZoomParameters where
  xFactor : ℚ
  yFactor : ℚ
  xCenter : ℚ
  yCenter : ℚ
deriving DecidableEq

/-- Constructor `ZoomParameters(qreal xFactor, qreal yFactor, const QPointF &center)`. -/
def ZoomParameters.ofCenter (xFactor yFactor : ℚ) (center : QPointF) : ZoomParameters :=
  ⟨xFactor, yFactor, center.x, center.y⟩

/-- Accessor `ZoomParameters::center()`. -/
def ZoomParameters.center (z : ZoomParameters) : QPointF := ⟨z.xCenter, z.yCenter⟩

/-- Identifier of an attached diagram (an `AbstractDiagram *`). -/
abbrev DiagramId := Nat

/-- The buttons of `Qt::MouseButton` that the handlers tell apart. -/
inductive MouseButton where
  | NoButton
  | LeftButton
  | RightButton
  | MiddleButton
deriving DecidableEq, Repr

/-- The four pointer handlers of a diagram that a plane forwards to. -/
inductive PointerHandler where
  | press
  | doubleClick
  | release
  | move
deriving DecidableEq, Repr

/-- The part of a `QMouseEvent` read by the plane. -/
structure QMouseEvent where
  button : MouseButton
  pos : QPoint
deriving DecidableEq, Repr

/-- State of an `AbstractCoordinatePlane` (the fields of its `Private` that the
interaction code reads or writes).

* `rubberBand` is `none` for `d->rubberBand == nullptr`; otherwise it holds the
  geometry of the `QRubberBand` widget, stored as passed to `setGeometry`
  (a widget may raise a negative extent to zero; both fail the test
  `rubberWidth > 0.0 && rubberHeight > 0.0` of `mouseReleaseEvent` alike).
* `rubberBandZoomConfigHistory` has the most recently pushed entry first.
* Modelled from the spec: `zoomFactorX`, `zoomFactorY` and `zoomCenter` are the
  zoom state owned by the plane. The accessors `zoomFactorX()`, `zoomFactorY()`,
  `zoomCenter()` and the setters `setZoomFactorX`, `setZoomFactorY`,
  `setZoomCenter` are virtual and declared outside the sources; they read and
  write these three fields.
* The plane is owned by a chart, so `parent()` is a widget. -/
structure Plane where
  geometry : QRect
  zoomFactorX : ℚ
  zoomFactorY : ℚ
  zoomCenter : QPointF
  rubberBandZoomConfigHistory : List ZoomParameters
  enableRubberBandZooming : Bool
  rubberBand : Option QRect
  rubberBandOrigin : QPoint
  diagrams : List DiagramId
deriving DecidableEq

namespace Plane

/-- Modelled from the spec: setter `setZoomFactorX` of the zoom state. -/
def setZoomFactorX (p : Plane) (factor : ℚ) : Plane := { p with zoomFactorX := factor }

/-- Modelled from the spec: setter `setZoomFactorY` of the zoom state. -/
def setZoomFactorY (p : Plane) (factor : ℚ) : Plane := { p with zoomFactorY := factor }

/-- Modelled from the spec: setter `setZoomCenter` of the zoom state. -/
def setZoomCenter (p : Plane) (center : QPointF) : Plane := { p with zoomCenter := center }

/-- The current zoom state as a `ZoomParameters` value:
`ZoomParameters(zoomFactorX(), zoomFactorY(), zoomCenter())`. -/
def zoomParameters (p : Plane) : ZoomParameters :=
  ZoomParameters.ofCenter p.zoomFactorX p.zoomFactorY p.zoomCenter

/-- Outcome of a pointer-event handler.

* `plane`: the state of the plane afterwards;
* `accepted`: the plane called `event->accept()`;
* `parentUpdate`: a repaint of the parent widget was requested;
* `forwarded`: the diagram handlers that were invoked, in call order. -/
structure Handled where
  plane : Plane
  accepted : Bool
  parentUpdate : Bool
  forwarded : List (PointerHandler × DiagramId)
deriving DecidableEq

/-- The loop `for (AbstractDiagram *a : qAsConst(d->diagrams)) a->handler(event)`:
the calls it makes, in order. -/
def forwardTo (p : Plane) (handler : PointerHandler) : List (PointerHandler × DiagramId) :=
  p.diagrams.map fun a => (handler, a)

/-- Method `AbstractCoordinatePlane::setRubberBandZoomingEnabled`. -/
def setRubberBandZoomingEnabled (p : Plane) (enable : Bool) : Plane :=
  let p1 := { p with enableRubberBandZooming := enable }
  if !enable && p1.rubberBand.isSome then { p1 with rubberBand := none } else p1

/-- Method `AbstractCoordinatePlane::mousePressEvent`. -/
def mousePressEvent (p : Plane) (event : QMouseEvent) : Handled :=
  if event.button = MouseButton.LeftButton then
    let p1 : Plane :=
      if p.enableRubberBandZooming && p.rubberBand.isNone then
        { p with rubberBand := some QRect.null }
      else p
    if p1.rubberBand.isSome then
      { plane := { p1 with
                   rubberBandOrigin := event.pos
                   rubberBand := some (QRect.ofPointSize event.pos QSize.default) }
        accepted := true
        parentUpdate := false
        forwarded := p.forwardTo PointerHandler.press }
    else
      { plane := p1
        accepted := false
        parentUpdate := false
        forwarded := p.forwardTo PointerHandler.press }
  else if event.button = MouseButton.RightButton then
    match p.enableRubberBandZooming, p.rubberBandZoomConfigHistory with
    | true, config :: rest =>
      let p1 := { p with rubberBandZoomConfigHistory := rest }
      let p2 := p1.setZoomFactorX config.xFactor
      let p3 := p2.setZoomFactorY config.yFactor
      let p4 := p3.setZoomCenter config.center
      { plane := p4
        accepted := true
        parentUpdate := true
        forwarded := p.forwardTo PointerHandler.press }
    | _, _ =>
      { plane := p
        accepted := false
        parentUpdate := false
        forwarded := p.forwardTo PointerHandler.press }
  else
    { plane := p
      accepted := false
      parentUpdate := false
      forwarded := p.forwardTo PointerHandler.press }

/-- Method `AbstractCoordinatePlane::mouseDoubleClickEvent`. -/
def mouseDoubleClickEvent (p : Plane) (event : QMouseEvent) : Handled :=
  if event.button = MouseButton.RightButton then
    let h := p.mousePressEvent event
    { h with forwarded := h.forwarded ++ h.plane.forwardTo PointerHandler.doubleClick }
  else
    { plane := p
      accepted := false
      parentUpdate := false
      forwarded := p.forwardTo PointerHandler.doubleClick }

/-- Method `AbstractCoordinatePlane::mouseReleaseEvent`. -/
def mouseReleaseEvent (p : Plane) (_event : QMouseEvent) : Handled :=
  match p.rubberBand with
  | some band =>
    -- save the old config on the stack
    let p1 := { p with
                rubberBandZoomConfigHistory := p.zoomParameters :: p.rubberBandZoomConfigHistory }
    let rubberWidth : ℚ := (band.width : ℚ)
    let rubberHeight : ℚ := (band.height : ℚ)
    let p2 : Plane :=
      if 0 < rubberWidth ∧ 0 < rubberHeight then
        let centerX : ℚ := (qFloor ((band.width : ℚ) / 2 + (band.x : ℚ)) : ℚ)
        let centerY : ℚ := (qCeil ((band.height : ℚ) / 2 + (band.y : ℚ)) : ℚ)
        let rubberCenterX : ℚ := centerX - (p1.geometry.x : ℚ)
        let rubberCenterY : ℚ := centerY - (p1.geometry.y : ℚ)
        let myWidth : ℚ := (p1.geometry.width : ℚ)
        let myHeight : ℚ := (p1.geometry.height : ℚ)
        let newCenterX : ℚ :=
          rubberCenterX / myWidth / p1.zoomFactorX + p1.zoomCenter.x - (1 / 2) / p1.zoomFactorX
        let newCenterY : ℚ :=
          rubberCenterY / myHeight / p1.zoomFactorY + p1.zoomCenter.y - (1 / 2) / p1.zoomFactorY
        let newZoomFactorX : ℚ := p1.zoomFactorX * myWidth / rubberWidth
        let newZoomFactorY : ℚ := p1.zoomFactorY * myHeight / rubberHeight
        let newZoomCenter : QPointF := ⟨newCenterX, newCenterY⟩
        ((p1.setZoomFactorX newZoomFactorX).setZoomFactorY newZoomFactorY).setZoomCenter
          newZoomCenter
      else p1
    { plane := { p2 with rubberBand := none }
      accepted := true
      parentUpdate := true
      forwarded := p.forwardTo PointerHandler.release }
  | none =>
    { plane := p
      accepted := false
      parentUpdate := false
      forwarded := p.forwardTo PointerHandler.release }

/-- Method `AbstractCoordinatePlane::mouseMoveEvent`. -/
def mouseMoveEvent (p : Plane) (event : QMouseEvent) : Handled :=
  match p.rubberBand with
  | some _ =>
    let normalized : QRect := (QRect.ofPoints p.rubberBandOrigin event.pos).normalized
    { plane := { p with rubberBand := some (normalized.intersected p.geometry) }
      accepted := true
      parentUpdate := false
      forwarded := p.forwardTo PointerHandler.move }
  | none =>
    { plane := p
      accepted := false
      parentUpdate := false
      forwarded := p.forwardTo PointerHandler.move }

end Plane

/-! ## Measure resolution and the global scaling stack -/

namespace KDChartEnums

/-- Enumeration `KDChartEnums::MeasureCalculationMode`. -/
inductive MeasureCalculationMode where
  | MeasureCalculationModeAbsolute
  | MeasureCalculationModeRelative
  | MeasureCalculationModeAuto
  | MeasureCalculationModeAutoArea
  | MeasureCalculationModeAutoOrientation
deriving DecidableEq, Repr

/-- Enumeration `KDChartEnums::MeasureOrientation`. -/
inductive MeasureOrientation where
  | MeasureOrientationAuto
  | MeasureOrientationMinimum
  | MeasureOrientationMaximum
  | MeasureOrientationHorizontal
  | MeasureOrientationVertical
deriving DecidableEq, Repr

end KDChartEnums

open KDChartEnums

/-- What `Measure::sizeOfArea` can find out about a `QObject` through its
`dynamic_cast`s: a chart area (`AbstractArea`) with its geometry, a `QWidget`
with its geometry, or any other object. -/
inductive QObject where
  | abstractArea (geometry : QRect)
  | widget (geometry : QRect)
  | other
deriving DecidableEq, Repr

/-- State of the singleton `GlobalMeasureScaling`: the stack `mFactors`, top first. -/
structure GlobalMeasureScaling where
  mFactors : List (ℚ × ℚ)
deriving DecidableEq

namespace GlobalMeasureScaling

/-- Constructor `GlobalMeasureScaling::GlobalMeasureScaling()`: pushes `(1.0, 1.0)`. -/
def init : GlobalMeasureScaling := ⟨[((1 : ℚ), (1 : ℚ))]⟩

/-- Method `GlobalMeasureScaling::setFactors`. -/
def setFactors (g : GlobalMeasureScaling) (factorX factorY : ℚ) : GlobalMeasureScaling :=
  ⟨(factorX, factorY) :: g.mFactors⟩

/-- Method `GlobalMeasureScaling::resetFactors`. -/
def resetFactors (g : GlobalMeasureScaling) : GlobalMeasureScaling :=
  -- never remove the initial (1.0. 1.0) setting
  if g.mFactors.length > 1 then ⟨g.mFactors.tail⟩ else g

/-- Method `GlobalMeasureScaling::currentFactors`: `mFactors.top()`, which is
undefined (`none`) on an empty stack. -/
def currentFactors (g : GlobalMeasureScaling) : Option (ℚ × ℚ) :=
  g.mFactors.head?

/-- A call of one of the two mutators of the factor stack. -/
inductive Call where
  | setFactors (factorX factorY : ℚ)
  | resetFactors
deriving DecidableEq

/-- One call applied to a state. -/
def step (g : GlobalMeasureScaling) : Call → GlobalMeasureScaling
  | Call.setFactors fx fy => g.setFactors fx fy
  | Call.resetFactors => g.resetFactors

/-- A finite sequence of calls applied in order, first call first. -/
def run (g : GlobalMeasureScaling) (calls : List Call) : GlobalMeasureScaling :=
  calls.foldl step g

end GlobalMeasureScaling

/-- The fields of a `Measure`; `mArea` is the optional reference area. -/
structure Measure where
  mValue : ℚ
  mMode : MeasureCalculationMode
  mArea : Option QObject
  mOrientation : MeasureOrientation
deriving DecidableEq

namespace Measure

/-- Method `Measure::sizeOfArea`; `area` is `none` for a null pointer. The result
is `none` when `currentFactors()` is undefined. -/
def sizeOfArea (m : Measure) (g : GlobalMeasureScaling) (area : Option QObject) :
    Option QSizeF :=
  let size : QSizeF :=
    match area with
    | some (QObject.abstractArea geometry) => geometry.size.toQSizeF
    | some (QObject.widget geometry) => geometry.size.toQSizeF
    | _ =>
      if m.mMode ≠ MeasureCalculationMode.MeasureCalculationModeAbsolute then ⟨1, 1⟩
      else QSizeF.default
  match g.currentFactors with
  | some factors => some ⟨size.wd * factors.1, size.ht * factors.2⟩
  | none => none

/-- The reference value picked from a size by an orientation (the inner `switch`
of `Measure::calculatedValue`). -/
def referenceValue (orientation : MeasureOrientation) (size : QSizeF) : ℚ :=
  match orientation with
  | MeasureOrientation.MeasureOrientationAuto => min size.wd size.ht
  | MeasureOrientation.MeasureOrientationMinimum => min size.wd size.ht
  | MeasureOrientation.MeasureOrientationMaximum => max size.wd size.ht
  | MeasureOrientation.MeasureOrientationHorizontal => size.wd
  | MeasureOrientation.MeasureOrientationVertical => size.ht

/-- Method `Measure::calculatedValue(const QSizeF &autoSize, autoOrientation)`.

The local object `theAutoArea` is distinct from every reference area, so the
pointer `area` is represented by an `Option QObject` in which `none` stands for
`autoArea` and `some a` for the reference area `mArea`; `area` is never null.
The result is `none` when `sizeOfArea` is undefined. -/
def calculatedValue (m : Measure) (g : GlobalMeasureScaling) (autoSize : QSizeF)
    (autoOrientation : MeasureOrientation) : Option ℚ :=
  if m.mMode = MeasureCalculationMode.MeasureCalculationModeAbsolute then
    some m.mValue
  else
    let area0 : Option QObject := m.mArea
    let orientation0 : MeasureOrientation := m.mOrientation
    let sel : Option QObject × MeasureOrientation :=
      match m.mMode with
      | MeasureCalculationMode.MeasureCalculationModeAuto => (none, autoOrientation)
      | MeasureCalculationMode.MeasureCalculationModeAutoArea => (none, orientation0)
      | MeasureCalculationMode.MeasureCalculationModeAutoOrientation => (area0, autoOrientation)
      | MeasureCalculationMode.MeasureCalculationModeAbsolute => (area0, orientation0)
      | MeasureCalculationMode.MeasureCalculationModeRelative => (area0, orientation0)
    let size : Option QSizeF :=
      match sel.1 with
      | none => some autoSize
      | some a => m.sizeOfArea g (some a)
    match size with
    | some sz => some (m.mValue / 1000 * referenceValue sel.2 sz)
    | none => none

/-- Method `Measure::calculatedValue(const QObject *autoArea, autoOrientation)`:
`calculatedValue(sizeOfArea(autoArea), autoOrientation)`. -/
def calculatedValueOfArea (m : Measure) (g : GlobalMeasureScaling)
    (autoArea : Option QObject) (autoOrientation : MeasureOrientation) : Option ℚ :=
  match m.sizeOfArea g autoArea with
  | some autoSize => m.calculatedValue g autoSize autoOrientation
  | none => none

end Measure

/-! ## Derived definitions used in the statements -/

namespace Plane

/-- The zoom state that `mouseReleaseEvent` computes from a selection `band` of
positive extent, written out from the body of the guarded block. -/
def releaseZoom (p : Plane) (band : QRect) : ZoomParameters :=
  { xFactor := p.zoomFactorX * (p.geometry.width : ℚ) / (band.width : ℚ)
    yFactor := p.zoomFactorY * (p.geometry.height : ℚ) / (band.height : ℚ)
    xCenter :=
      ((qFloor ((band.width : ℚ) / 2 + (band.x : ℚ)) : ℚ) - (p.geometry.x : ℚ))
          / (p.geometry.width : ℚ) / p.zoomFactorX
        + p.zoomCenter.x - (1 / 2) / p.zoomFactorX
    yCenter :=
      ((qCeil ((band.height : ℚ) / 2 + (band.y : ℚ)) : ℚ) - (p.geometry.y : ℚ))
          / (p.geometry.height : ℚ) / p.zoomFactorY
        + p.zoomCenter.y - (1 / 2) / p.zoomFactorY }

end Plane

/-- A plane of 400 by 300 pixels at the origin with zoom factors `(1, 1)`,
center `(1/2, 1/2)`, an empty history and rubber-band zooming enabled. -/
def samplePlane : Plane :=
  { geometry := QRect.ofXYWH 0 0 400 300
    zoomFactorX := 1
    zoomFactorY := 1
    zoomCenter := ⟨1 / 2, 1 / 2⟩
    rubberBandZoomConfigHistory := []
    enableRubberBandZooming := true
    rubberBand := none
    rubberBandOrigin := ⟨0, 0⟩
    diagrams := [] }

/-- The sample plane while a selection of the given geometry is active. -/
def samplePlaneSelecting (band : QRect) : Plane :=
  { samplePlane with rubberBand := some band }

/-- The scenario up to the pointer move: on the sample plane, a left-button press
at `(100, 75)` followed by a pointer move to `target`. -/
def scenarioMove (target : QPoint) : Plane.Handled :=
  (samplePlane.mousePressEvent ⟨MouseButton.LeftButton, ⟨100, 75⟩⟩).plane.mouseMoveEvent
    ⟨MouseButton.NoButton, target⟩

/-- The sample plane with one history entry `(2, 3, (1/4, 3/4))` and rubber-band
zooming set to `enable`. -/
def samplePlaneWithHistory (enable : Bool) : Plane :=
  { samplePlane with
    rubberBandZoomConfigHistory := [⟨2, 3, 1 / 4, 3 / 4⟩]
    enableRubberBandZooming := enable }

/-- A plane of width 0 and height 300 with zoom factors `(1, 1)` on which a
selection of 10 by 10 pixels is active. -/
def flatPlaneSelecting : Plane :=
  { samplePlane with
    geometry := QRect.ofXYWH 0 0 0 300
    rubberBand := some (QRect.ofXYWH 0 0 10 10) }

/-! ## Diagram registry, notifications and geometry -/

/-- Identifier of a chart (a `KDChart::Chart *`). -/
abbrev ChartId := Nat

/-- Identifier of a coordinate plane (an `AbstractCoordinatePlane *`). -/
abbrev PlaneId := Nat

/-- The objects between which `addDiagram` and `takeDiagram` make connections:
the plane itself (`this`) or a diagram. -/
inductive ObjectRef where
  | plane
  | diagram (d : DiagramId)
deriving DecidableEq, Repr

/-- The signals and slots named in the `connect` and `disconnect` calls. -/
inductive Member where
  | modelsChanged
  | modelDataChanged
  | layoutPlanes
  | update
  | relayout
  | boundariesChanged
deriving DecidableEq, Repr

/-- One signal-slot connection `connect(sender, signal, receiver, method)`. -/
structure Connection where
  sender : ObjectRef
  signal : Member
  receiver : ObjectRef
  method : Member
deriving DecidableEq, Repr

/-- What a method of the plane sends out: one of its signals, or the call of the
pure virtual `layoutDiagrams()`, whose implementations are outside the sources. -/
inductive Effect where
  | needUpdate
  | needRelayout
  | needLayoutPlanes
  | boundariesChanged
  | layoutDiagrams
deriving DecidableEq, Repr

/-- The attributes of a diagram that the plane writes: its `QObject` parent, its
coordinate-plane back-reference and whether `hide()` was called on it. -/
structure DiagramState where
  parent : Option ChartId
  coordinatePlane : Option PlaneId
  hidden : Bool
deriving DecidableEq, Repr

/-- A plane together with what its registry and geometry methods touch.

* `self` identifies the plane (`this`), `parent` is `d->parent`;
* `diagramState` gives the attributes of every diagram;
* `connections` are the connections made by `connect`, oldest first;
* `effects` are the signals emitted and layout calls made so far, oldest first;
  their subscribers are outside the sources and are taken not to call back into
  the plane;
* `geometryChangedQueue` holds the `geometryChanged(old, new)` notifications
  posted through the queued connection that `init()` makes from
  `internal_geometryChanged`, oldest first;
* `destroyed` lists the diagrams on which `delete` was called. -/
structure Scene where
  plane : Plane
  self : PlaneId
  parent : Option ChartId
  diagramState : DiagramId → DiagramState
  connections : List Connection
  effects : List Effect
  geometryChangedQueue : List (QRect × QRect)
  destroyed : List DiagramId

namespace Scene

/-- Statement `Q_EMIT signal()` and the call of `layoutDiagrams()`: recorded. -/
def emit (s : Scene) (e : Effect) : Scene := { s with effects := s.effects ++ [e] }

/-- Method `AbstractCoordinatePlane::update`. -/
def update (s : Scene) : Scene := s.emit Effect.needUpdate

/-- Method `AbstractCoordinatePlane::relayout`. -/
def relayout (s : Scene) : Scene := s.emit Effect.needRelayout

/-- Method `AbstractCoordinatePlane::layoutPlanes`. -/
def layoutPlanes (s : Scene) : Scene := s.emit Effect.needLayoutPlanes

/-- The pure virtual `AbstractCoordinatePlane::layoutDiagrams`: the call is recorded. -/
def layoutDiagrams (s : Scene) : Scene := s.emit Effect.layoutDiagrams

/-- Qt `QObject::connect`: adds a connection (a second identical one is kept). -/
def connect (s : Scene) (c : Connection) : Scene :=
  { s with connections := s.connections ++ [c] }

/-- Qt `QObject::disconnect(sender, signal, receiver, method)`: removes every
connection of that signal to that method. -/
def disconnect (s : Scene) (c : Connection) : Scene :=
  { s with connections := s.connections.filter fun k => decide (k ≠ c) }

/-- Write the attributes of one diagram. -/
def setDiagramState (s : Scene) (diagram : DiagramId) (st : DiagramState) : Scene :=
  { s with diagramState := fun k => if k = diagram then st else s.diagramState k }

/-- Qt `QWidget::hide` on a diagram. -/
def hide (s : Scene) (diagram : DiagramId) : Scene :=
  s.setDiagramState diagram { s.diagramState diagram with hidden := true }

/-- Qt `setParent` on a diagram. -/
def setDiagramParent (s : Scene) (diagram : DiagramId) (parent : Option ChartId) : Scene :=
  s.setDiagramState diagram { s.diagramState diagram with parent := parent }

/-- Modelled from the spec: `AbstractDiagram::setCoordinatePlane` (defined outside
the sources) stores the coordinate-plane back-reference of the diagram. -/
def setCoordinatePlane (s : Scene) (diagram : DiagramId) (plane : Option PlaneId) : Scene :=
  s.setDiagramState diagram { s.diagramState diagram with coordinatePlane := plane }

/-- The connection `diagram.modelsChanged -> this.layoutPlanes`. -/
def connModelsChanged (diagram : DiagramId) : Connection :=
  ⟨ObjectRef.diagram diagram, Member.modelsChanged, ObjectRef.plane, Member.layoutPlanes⟩

/-- The connection `diagram.modelDataChanged -> this.update`. -/
def connDataChangedUpdate (diagram : DiagramId) : Connection :=
  ⟨ObjectRef.diagram diagram, Member.modelDataChanged, ObjectRef.plane, Member.update⟩

/-- The connection `diagram.modelDataChanged -> this.relayout`. -/
def connDataChangedRelayout (diagram : DiagramId) : Connection :=
  ⟨ObjectRef.diagram diagram, Member.modelDataChanged, ObjectRef.plane, Member.relayout⟩

/-- The connection `this.boundariesChanged -> diagram.boundariesChanged`. -/
def connBoundariesChanged (diagram : DiagramId) : Connection :=
  ⟨ObjectRef.plane, Member.boundariesChanged, ObjectRef.diagram diagram,
    Member.boundariesChanged⟩

/-- Method `AbstractCoordinatePlane::addDiagram`. -/
def addDiagram (s : Scene) (diagram : DiagramId) : Scene :=
  -- diagrams are invisible and paint through their paint() method
  let s1 := s.hide diagram
  let s2 := { s1 with plane := { s1.plane with diagrams := s1.plane.diagrams ++ [diagram] } }
  let s3 := s2.setDiagramParent diagram s2.parent
  let s4 := s3.setCoordinatePlane diagram (some s3.self)
  let s5 := s4.layoutDiagrams
  let s6 := s5.layoutPlanes
  let s7 := s6.connect (connModelsChanged diagram)
  let s8 := s7.connect (connDataChangedUpdate diagram)
  let s9 := s8.connect (connDataChangedRelayout diagram)
  let s10 := s9.connect (connBoundariesChanged diagram)
  let s11 := s10.update
  s11.emit Effect.boundariesChanged

/-- Method `AbstractCoordinatePlane::takeDiagram`. `List.indexOf` returns the
length of the list where `QList::indexOf` returns `-1`. -/
def takeDiagram (s : Scene) (diagram : DiagramId) : Scene :=
  let idx := s.plane.diagrams.indexOf diagram
  if idx ≠ s.plane.diagrams.length then
    let s1 := { s with plane := { s.plane with diagrams := s.plane.diagrams.eraseIdx idx } }
    let s2 := s1.setDiagramParent diagram none
    let s3 := s2.setCoordinatePlane diagram none
    let s4 := s3.disconnect (connModelsChanged diagram)
    let s5 := s4.disconnect (connDataChangedUpdate diagram)
    let s6 := s5.disconnect (connDataChangedRelayout diagram)
    let s7 := s6.layoutDiagrams
    s7.update
  else s

/-- Statement `delete oldDiagram`: nothing for a null pointer; otherwise the
diagram is destroyed and, as for every `QObject`, its connections go with it. -/
def deleteDiagram (s : Scene) (diagram : Option DiagramId) : Scene :=
  match diagram with
  | none => s
  | some dg =>
    { s with
      destroyed := s.destroyed ++ [dg]
      connections := s.connections.filter fun k =>
        decide (k.sender ≠ ObjectRef.diagram dg ∧ k.receiver ≠ ObjectRef.diagram dg) }

/-- Method `AbstractCoordinatePlane::replaceDiagram`; a null pointer is `none`. -/
def replaceDiagram (s : Scene) (diagram : Option DiagramId)
    (oldDiagram_ : Option DiagramId) : Scene :=
  match diagram with
  | none => s
  | some dg =>
    if oldDiagram_ = some dg then s
    else
      -- the block `if (d->diagrams.count())`: `none` is its early `return`,
      -- otherwise the state after it and the resolved `oldDiagram`
      let taken : Option (Scene × Option DiagramId) :=
        match s.plane.diagrams with
        | [] => some (s, oldDiagram_)
        | first :: _ =>
          match oldDiagram_ with
          | none => if first = dg then none else some (s.takeDiagram first, some first)
          | some old => some (s.takeDiagram old, some old)
      match taken with
      | none => s
      | some (s1, oldDiagram) =>
        let s2 := s1.deleteDiagram oldDiagram
        let s3 := s2.addDiagram dg
        let s4 := s3.layoutDiagrams
        let s5 := s4.layoutPlanes
        s5.update

/-- Method `AbstractCoordinatePlane::diagram`. -/
def diagram (s : Scene) : Option DiagramId :=
  if s.plane.diagrams.isEmpty then none else s.plane.diagrams.head?

/-- Method `AbstractCoordinatePlane::diagrams`. -/
def diagrams (s : Scene) : List DiagramId := s.plane.diagrams

/-- Method `AbstractCoordinatePlane::setGeometry`. -/
def setGeometry (s : Scene) (r : QRect) : Scene :=
  if s.plane.geometry ≠ r then
    { s with
      geometryChangedQueue := s.geometryChangedQueue ++ [(s.plane.geometry, r)]
      plane := { s.plane with geometry := r } }
  else s

/-- Method `AbstractCoordinatePlane::geometry`. -/
def geometry (s : Scene) : QRect := s.plane.geometry

/-- A call of `addDiagram` or of `takeDiagram`. -/
inductive RegistryCall where
  | addDiagram (d : DiagramId)
  | takeDiagram (d : DiagramId)
deriving DecidableEq, Repr

/-- One registry call applied to a scene. -/
def step (s : Scene) : RegistryCall → Scene
  | RegistryCall.addDiagram d => s.addDiagram d
  | RegistryCall.takeDiagram d => s.takeDiagram d

/-- A finite sequence of registry calls applied in order, first call first. -/
def run (s : Scene) (calls : List RegistryCall) : Scene :=
  calls.foldl step s

/-- Whether, along the run of `calls` from `s`, every `addDiagram(d)` is made
while `d` is not in the diagram list. -/
def addsOnlyAbsent (s : Scene) : List RegistryCall → Bool
  | [] => true
  | RegistryCall.addDiagram d :: cs =>
    decide (d ∉ s.plane.diagrams) && addsOnlyAbsent (s.addDiagram d) cs
  | RegistryCall.takeDiagram d :: cs => addsOnlyAbsent (s.takeDiagram d) cs

/-- A scene around the sample plane: plane 0 of chart 0, no diagram attached to
it, every diagram without parent and back-reference, nothing connected, emitted,
queued or destroyed. -/
def fresh : Scene :=
  { plane := samplePlane
    self := 0
    parent := some 0
    diagramState := fun _ => ⟨none, none, false⟩
    connections := []
    effects := []
    geometryChangedQueue := []
    destroyed := [] }

end Scene

/-! ## Derived definitions for measures -/

namespace Measure

/-- The orientation that `calculatedValue` ends up using: the first `switch`
replaces `mOrientation` by `autoOrientation` in the modes Auto and
AutoOrientation. -/
def effectiveOrientation (m : Measure) (autoOrientation : MeasureOrientation) :
    MeasureOrientation :=
  match m.mMode with
  | MeasureCalculationMode.MeasureCalculationModeAuto => autoOrientation
  | MeasureCalculationMode.MeasureCalculationModeAutoOrientation => autoOrientation
  | _ => m.mOrientation

/-- The area that `calculatedValue` ends up using, `none` standing for the auto
area: the first `switch` replaces `mArea` by the auto area in the modes Auto and
AutoArea, and a measure without reference area uses the auto area throughout. -/
def effectiveArea (m : Measure) : Option QObject :=
  match m.mMode with
  | MeasureCalculationMode.MeasureCalculationModeAuto => none
  | MeasureCalculationMode.MeasureCalculationModeAutoArea => none
  | _ => m.mArea

end Measure

/-- A measure of value 250 without reference area and with reference orientation
Horizontal, in the given mode. -/
def sampleMeasure (mode : MeasureCalculationMode) : Measure :=
  ⟨250, mode, none, MeasureOrientation.MeasureOrientationHorizontal⟩

/-! ## Sequences of interaction calls -/

/-- Method `QRect::contains(const QPoint &)`: on an axis whose extent is negative
the two corners are swapped before the comparison. -/
def QRect.contains (r : QRect) (pt : QPoint) : Bool :=
  let l := if r.x2 < r.x1 - 1 then r.x2 else r.x1
  let rr := if r.x2 < r.x1 - 1 then r.x1 else r.x2
  let t := if r.y2 < r.y1 - 1 then r.y2 else r.y1
  let b := if r.y2 < r.y1 - 1 then r.y1 else r.y2
  !(pt.x < l || pt.x > rr) && !(pt.y < t || pt.y > b)

namespace Plane

/-- A call of one of the interaction methods of the plane. -/
inductive Call where
  | setRubberBandZoomingEnabled (enable : Bool)
  | mousePressEvent (event : QMouseEvent)
  | mouseDoubleClickEvent (event : QMouseEvent)
  | mouseReleaseEvent (event : QMouseEvent)
  | mouseMoveEvent (event : QMouseEvent)
deriving DecidableEq, Repr

/-- One interaction call applied to a plane. -/
def step (p : Plane) : Call → Plane
  | Call.setRubberBandZoomingEnabled enable => p.setRubberBandZoomingEnabled enable
  | Call.mousePressEvent event => (p.mousePressEvent event).plane
  | Call.mouseDoubleClickEvent event => (p.mouseDoubleClickEvent event).plane
  | Call.mouseReleaseEvent event => (p.mouseReleaseEvent event).plane
  | Call.mouseMoveEvent event => (p.mouseMoveEvent event).plane

/-- A finite sequence of interaction calls applied in order, first call first. -/
def run (p : Plane) (calls : List Call) : Plane :=
  calls.foldl step p

/-- One rubber-band gesture: a left-button press, pointer moves, a release. -/
structure Gesture where
  press : QPoint
  moves : List QPoint
  release : QPoint
deriving DecidableEq, Repr

/-- The plane after one rubber-band gesture. -/
def gesture (p : Plane) (g : Gesture) : Plane :=
  ((g.moves.foldl
      (fun q pos => (q.mouseMoveEvent ⟨MouseButton.NoButton, pos⟩).plane)
      (p.mousePressEvent ⟨MouseButton.LeftButton, g.press⟩).plane).mouseReleaseEvent
    ⟨MouseButton.LeftButton, g.release⟩).plane

/-- The plane after a sequence of rubber-band gestures. -/
def gestures (p : Plane) (gs : List Gesture) : Plane :=
  gs.foldl gesture p

/-- The zoom state of a plane as the triple of the spec: zoom factor X, zoom
factor Y and center, read from the three fields. -/
def zoomState (p : Plane) : ℚ × ℚ × QPointF :=
  (p.zoomFactorX, p.zoomFactorY, p.zoomCenter)

/-- The zoom states a sequence of gestures starts its gestures from: for `k`
gestures passing through the planes `s0, s1, ..., sk`, the zoom states of
`s0, ..., s(k-1)`. -/
def zoomStatesBefore (p : Plane) : List Gesture → List (ℚ × ℚ × QPointF)
  | [] => []
  | g :: gs => p.zoomState :: zoomStatesBefore (p.gesture g) gs

/-- The plane after one right-button press at `pos`. -/
def undo (p : Plane) (pos : QPoint) : Plane :=
  (p.mousePressEvent ⟨MouseButton.RightButton, pos⟩).plane

/-- The plane after a right-button press at each of the given positions. -/
def undos (p : Plane) (positions : List QPoint) : Plane :=
  positions.foldl undo p

/-- The zoom states of the plane after each of the right-button presses, in
order. -/
def undoTrace (p : Plane) : List QPoint → List (ℚ × ℚ × QPointF)
  | [] => []
  | pos :: rest => (p.undo pos).zoomState :: undoTrace (p.undo pos) rest

end Plane

/-- The sample plane with the inverted geometry `QRect(10, 0, -9, 10)`, whose
width is `-9`, while a selection anchored at `(0, 0)` is active. -/
def invertedPlaneSelecting : Plane :=
  { samplePlane with
    geometry := QRect.ofXYWH 10 0 (-9) 10
    rubberBand := some (QRect.ofPointSize ⟨0, 0⟩ QSize.default) }

end KDChart

/-! ## Theorems: rubber-band zoom and zoom history -/

namespace KDChart

open Plane

/-- Release with an active selection that fails the guard on its extent: only
the history push and the end of the selection happen. -/
theorem mouseReleaseEvent_of_no_extent (p : Plane) (band : QRect) (event : QMouseEvent)
    (hband : p.rubberBand = some band) (hguard : ¬ (0 < band.width ∧ 0 < band.height)) :
    p.mouseReleaseEvent event =
      { plane := { p with
                   rubberBandZoomConfigHistory :=
                     p.zoomParameters :: p.rubberBandZoomConfigHistory
                   rubberBand := none }
        accepted := true
        parentUpdate := true
        forwarded := p.forwardTo PointerHandler.release } := by
  have hq : ¬ ((0 : ℚ) < (band.width : ℚ) ∧ (0 : ℚ) < (band.height : ℚ)) := by
    simpa only [Int.cast_pos] using hguard
  unfold mouseReleaseEvent
  rw [hband]
  simp only [if_neg hq]

/-- Release with an active selection of positive extent: the history push, the
new zoom state and the end of the selection. -/
theorem mouseReleaseEvent_of_extent (p : Plane) (band : QRect) (event : QMouseEvent)
    (hband : p.rubberBand = some band) (hw : 0 < band.width) (hh : 0 < band.height) :
    p.mouseReleaseEvent event =
      { plane := { p with
                   zoomFactorX := (p.releaseZoom band).xFactor
                   zoomFactorY := (p.releaseZoom band).yFactor
                   zoomCenter := (p.releaseZoom band).center
                   rubberBandZoomConfigHistory :=
                     p.zoomParameters :: p.rubberBandZoomConfigHistory
                   rubberBand := none }
        accepted := true
        parentUpdate := true
        forwarded := p.forwardTo PointerHandler.release } := by
  have hq : (0 : ℚ) < (band.width : ℚ) ∧ (0 : ℚ) < (band.height : ℚ) := by
    simpa only [Int.cast_pos] using And.intro hw hh
  unfold mouseReleaseEvent
  rw [hband]
  simp only [if_pos hq]
  rfl

/-- In every case a release with an active selection pushes the zoom state of
before the release and keeps the older entries. -/
theorem mouseReleaseEvent_history (p : Plane) (band : QRect) (event : QMouseEvent)
    (hband : p.rubberBand = some band) :
    (p.mouseReleaseEvent event).plane.rubberBandZoomConfigHistory
      = p.zoomParameters :: p.rubberBandZoomConfigHistory ∧
    (p.mouseReleaseEvent event).plane.enableRubberBandZooming
      = p.enableRubberBandZooming := by
  by_cases hguard : 0 < band.width ∧ 0 < band.height
  · rw [mouseReleaseEvent_of_extent p band event hband hguard.1 hguard.2]
    exact ⟨rfl, rfl⟩
  · rw [mouseReleaseEvent_of_no_extent p band event hband hguard]
    exact ⟨rfl, rfl⟩

/-- A right-button press with zooming enabled and a non-empty history pops the
top entry and applies it. -/
theorem mousePressEvent_right_pop (p : Plane) (config : ZoomParameters)
    (rest : List ZoomParameters) (pos : QPoint)
    (hen : p.enableRubberBandZooming = true)
    (hhist : p.rubberBandZoomConfigHistory = config :: rest) :
    p.mousePressEvent ⟨MouseButton.RightButton, pos⟩ =
      { plane := { p with
                   zoomFactorX := config.xFactor
                   zoomFactorY := config.yFactor
                   zoomCenter := config.center
                   rubberBandZoomConfigHistory := rest }
        accepted := true
        parentUpdate := true
        forwarded := p.forwardTo PointerHandler.press } := by
  unfold mousePressEvent
  simp [hen, hhist, setZoomFactorX, setZoomFactorY, setZoomCenter]

/-- A right-button press with zooming disabled or an empty history changes
nothing and is not consumed. -/
theorem mousePressEvent_right_idle (p : Plane) (pos : QPoint)
    (h : p.enableRubberBandZooming = false ∨ p.rubberBandZoomConfigHistory = []) :
    p.mousePressEvent ⟨MouseButton.RightButton, pos⟩ =
      { plane := p
        accepted := false
        parentUpdate := false
        forwarded := p.forwardTo PointerHandler.press } := by
  unfold mousePressEvent
  rcases h with h | h
  · simp [h]
  · cases hen : p.enableRubberBandZooming <;> simp [h]

/-- Claim C1 as stated fails: on the sample plane with an active selection of
width 0 (and height 0), a release makes the zoom history one entry longer. -/
theorem release_zero_extent_pushes_history :
    (QRect.ofXYWH 10 10 0 0).width = 0 ∧
    ((samplePlaneSelecting (QRect.ofXYWH 10 10 0 0)).mouseReleaseEvent
        ⟨MouseButton.LeftButton, ⟨10, 10⟩⟩).plane.rubberBandZoomConfigHistory
      ≠ (samplePlaneSelecting (QRect.ofXYWH 10 10 0 0)).rubberBandZoomConfigHistory := by
  constructor
  · decide
  · rw [mouseReleaseEvent_of_no_extent _ (QRect.ofXYWH 10 10 0 0) _ rfl (by decide)]
    simp [samplePlaneSelecting, samplePlane]

/-- Claim C1, amended: a release while a selection of width 0 or height 0 is
active leaves zoom factor X, zoom factor Y and the zoom center unchanged, ends
the selection and is consumed; the history afterwards is the history before
with the zoom state of before the release pushed on top. -/
theorem release_zero_extent_keeps_zoom (p : Plane) (band : QRect) (event : QMouseEvent)
    (hband : p.rubberBand = some band) (hzero : band.width = 0 ∨ band.height = 0) :
    (p.mouseReleaseEvent event).plane.zoomFactorX = p.zoomFactorX ∧
    (p.mouseReleaseEvent event).plane.zoomFactorY = p.zoomFactorY ∧
    (p.mouseReleaseEvent event).plane.zoomCenter = p.zoomCenter ∧
    (p.mouseReleaseEvent event).plane.rubberBandZoomConfigHistory
      = p.zoomParameters :: p.rubberBandZoomConfigHistory ∧
    (p.mouseReleaseEvent event).plane.rubberBand = none ∧
    (p.mouseReleaseEvent event).accepted = true := by
  have hguard : ¬ (0 < band.width ∧ 0 < band.height) := by
    rcases hzero with h | h <;> omega
  rw [mouseReleaseEvent_of_no_extent p band event hband hguard]
  exact ⟨rfl, rfl, rfl, rfl, rfl, rfl⟩

/-- Witness for claim C1 (amended): a selection of no extent on the sample plane. -/
theorem release_zero_extent_keeps_zoom_witness :
    (samplePlaneSelecting (QRect.ofXYWH 10 10 0 0)).rubberBand
      = some (QRect.ofXYWH 10 10 0 0) ∧
    ((QRect.ofXYWH 10 10 0 0).width = 0 ∨ (QRect.ofXYWH 10 10 0 0).height = 0) ∧
    ((samplePlaneSelecting (QRect.ofXYWH 10 10 0 0)).mouseReleaseEvent
        ⟨MouseButton.LeftButton, ⟨10, 10⟩⟩).plane.zoomFactorX = 1 :=
  ⟨rfl, Or.inl (by decide),
    (release_zero_extent_keeps_zoom (samplePlaneSelecting (QRect.ofXYWH 10 10 0 0))
      (QRect.ofXYWH 10 10 0 0) ⟨MouseButton.LeftButton, ⟨10, 10⟩⟩ rfl
      (Or.inl (by decide))).1⟩

/-- Claim C2: with rubber-band zooming enabled, a release while selecting pushes
the zoom state `s` of before the release onto the history `h`, and the
right-button press that follows restores zoom factor X, zoom factor Y and the
center of `s`, shortens the history by exactly one entry and gives back `h`. -/
theorem release_then_right_press_round_trip (p : Plane) (band : QRect)
    (event : QMouseEvent) (pos : QPoint)
    (hen : p.enableRubberBandZooming = true) (hband : p.rubberBand = some band) :
    (p.mouseReleaseEvent event).plane.rubberBandZoomConfigHistory
      = p.zoomParameters :: p.rubberBandZoomConfigHistory ∧
    (((p.mouseReleaseEvent event).plane.mousePressEvent
        ⟨MouseButton.RightButton, pos⟩).plane.zoomFactorX = p.zoomFactorX ∧
     ((p.mouseReleaseEvent event).plane.mousePressEvent
        ⟨MouseButton.RightButton, pos⟩).plane.zoomFactorY = p.zoomFactorY ∧
     ((p.mouseReleaseEvent event).plane.mousePressEvent
        ⟨MouseButton.RightButton, pos⟩).plane.zoomCenter = p.zoomCenter) ∧
    ((p.mouseReleaseEvent event).plane.mousePressEvent
        ⟨MouseButton.RightButton, pos⟩).plane.rubberBandZoomConfigHistory
      = p.rubberBandZoomConfigHistory ∧
    ((p.mouseReleaseEvent event).plane.mousePressEvent
        ⟨MouseButton.RightButton, pos⟩).plane.rubberBandZoomConfigHistory.length + 1
      = (p.mouseReleaseEvent event).plane.rubberBandZoomConfigHistory.length := by
  obtain ⟨hhist, hen1⟩ := mouseReleaseEvent_history p band event hband
  rw [mousePressEvent_right_pop (p.mouseReleaseEvent event).plane p.zoomParameters
    p.rubberBandZoomConfigHistory pos (hen1.trans hen) hhist]
  refine ⟨hhist, ⟨rfl, rfl, rfl⟩, rfl, ?_⟩
  rw [hhist]
  rfl

/-- Witness for claim C2: a 200 by 150 selection on the sample plane, released
and then undone. -/
theorem release_then_right_press_round_trip_witness :
    samplePlane.enableRubberBandZooming = true ∧
    (samplePlaneSelecting (QRect.ofXYWH 100 75 200 150)).rubberBand
      = some (QRect.ofXYWH 100 75 200 150) ∧
    ((((samplePlaneSelecting (QRect.ofXYWH 100 75 200 150)).mouseReleaseEvent
        ⟨MouseButton.LeftButton, ⟨300, 225⟩⟩).plane.mousePressEvent
        ⟨MouseButton.RightButton, ⟨0, 0⟩⟩).plane.rubberBandZoomConfigHistory = []) :=
  ⟨rfl, rfl,
    (release_then_right_press_round_trip
      (samplePlaneSelecting (QRect.ofXYWH 100 75 200 150)) (QRect.ofXYWH 100 75 200 150)
      ⟨MouseButton.LeftButton, ⟨300, 225⟩⟩ ⟨0, 0⟩ rfl rfl).2.2.1⟩

/-- Claim C3: a release while a selection `(x, y, w, h)` of positive width and
height is active sets, per axis, the new zoom factor to the current factor times
the plane size divided by the selection size, and the new center to
`selectionCenter / planeSize / currentFactor + currentCenter - 0.5 / currentFactor`
with the plane-local selection center `(floor (x + w/2) - gx, ceil (y + h/2) - gy)`;
every value on the right is read from the state before the release. -/
theorem release_sets_zoom_by_formula (p : Plane) (band : QRect) (event : QMouseEvent)
    (hband : p.rubberBand = some band) (hw : 0 < band.width) (hh : 0 < band.height) :
    (p.mouseReleaseEvent event).plane.zoomFactorX
      = p.zoomFactorX * (p.geometry.width : ℚ) / (band.width : ℚ) ∧
    (p.mouseReleaseEvent event).plane.zoomFactorY
      = p.zoomFactorY * (p.geometry.height : ℚ) / (band.height : ℚ) ∧
    (p.mouseReleaseEvent event).plane.zoomCenter.x
      = ((Int.floor ((band.x : ℚ) + (band.width : ℚ) / 2) - p.geometry.x : Int) : ℚ)
          / (p.geometry.width : ℚ) / p.zoomFactorX
        + p.zoomCenter.x - 0.5 / p.zoomFactorX ∧
    (p.mouseReleaseEvent event).plane.zoomCenter.y
      = ((Int.ceil ((band.y : ℚ) + (band.height : ℚ) / 2) - p.geometry.y : Int) : ℚ)
          / (p.geometry.height : ℚ) / p.zoomFactorY
        + p.zoomCenter.y - 0.5 / p.zoomFactorY := by
  rw [mouseReleaseEvent_of_extent p band event hband hw hh]
  have h05 : (0.5 : ℚ) = 1 / 2 := by norm_num
  refine ⟨rfl, rfl, ?_, ?_⟩
  · show (p.releaseZoom band).xCenter = _
    simp only [releaseZoom, qFloor, h05, Int.cast_sub, add_comm ((band.x : ℚ))]
  · show (p.releaseZoom band).yCenter = _
    simp only [releaseZoom, qCeil, h05, Int.cast_sub, add_comm ((band.y : ℚ))]

/-- Witness for claim C3: the 200 by 150 selection at `(100, 75)` on the sample
plane. -/
theorem release_sets_zoom_by_formula_witness :
    (samplePlaneSelecting (QRect.ofXYWH 100 75 200 150)).rubberBand
      = some (QRect.ofXYWH 100 75 200 150) ∧
    0 < (QRect.ofXYWH 100 75 200 150).width ∧
    0 < (QRect.ofXYWH 100 75 200 150).height ∧
    ((samplePlaneSelecting (QRect.ofXYWH 100 75 200 150)).mouseReleaseEvent
        ⟨MouseButton.LeftButton, ⟨300, 225⟩⟩).plane.zoomFactorX
      = samplePlane.zoomFactorX * ((QRect.ofXYWH 0 0 400 300).width : ℚ)
          / ((QRect.ofXYWH 100 75 200 150).width : ℚ) :=
  ⟨rfl, by decide, by decide,
    (release_sets_zoom_by_formula (samplePlaneSelecting (QRect.ofXYWH 100 75 200 150))
      (QRect.ofXYWH 100 75 200 150) ⟨MouseButton.LeftButton, ⟨300, 225⟩⟩ rfl
      (by decide) (by decide)).1⟩


/-- Claim C5 as stated fails: with rubber-band zooming disabled and a history of
one entry, a right-button press removes nothing and leaves the zoom factor. -/
theorem right_press_disabled_keeps_history :
    (samplePlaneWithHistory false).rubberBandZoomConfigHistory ≠ [] ∧
    ((samplePlaneWithHistory false).mousePressEvent
        ⟨MouseButton.RightButton, ⟨0, 0⟩⟩).plane.rubberBandZoomConfigHistory
      = (samplePlaneWithHistory false).rubberBandZoomConfigHistory ∧
    ((samplePlaneWithHistory false).mousePressEvent
        ⟨MouseButton.RightButton, ⟨0, 0⟩⟩).plane.zoomFactorX ≠ 2 := by
  rw [mousePressEvent_right_idle _ _ (Or.inl rfl)]
  refine ⟨by simp [samplePlaneWithHistory], rfl, ?_⟩
  simp [samplePlaneWithHistory, samplePlane]

/-- Claim C5, amended: for every plane state with rubber-band zooming enabled
whose zoom history is non-empty, a right-button press removes exactly the most
recent history entry, sets zoom factor X, zoom factor Y and the zoom center to
the values stored in that entry and leaves the remaining entries unchanged. For
every plane state with rubber-band zooming disabled, a right-button press leaves
the whole state of the plane, so the zoom state and the history, unchanged and
is not accepted. -/
theorem right_press_pops_and_applies (p : Plane) (pos : QPoint) :
    (∀ (config : ZoomParameters) (rest : List ZoomParameters),
      p.enableRubberBandZooming = true →
      p.rubberBandZoomConfigHistory = config :: rest →
      (p.mousePressEvent ⟨MouseButton.RightButton, pos⟩).plane.rubberBandZoomConfigHistory
        = rest ∧
      (p.mousePressEvent ⟨MouseButton.RightButton, pos⟩).plane.zoomFactorX
        = config.xFactor ∧
      (p.mousePressEvent ⟨MouseButton.RightButton, pos⟩).plane.zoomFactorY
        = config.yFactor ∧
      (p.mousePressEvent ⟨MouseButton.RightButton, pos⟩).plane.zoomCenter
        = config.center) ∧
    (p.enableRubberBandZooming = false →
      (p.mousePressEvent ⟨MouseButton.RightButton, pos⟩).plane = p ∧
      (p.mousePressEvent ⟨MouseButton.RightButton, pos⟩).plane.zoomFactorX
        = p.zoomFactorX ∧
      (p.mousePressEvent ⟨MouseButton.RightButton, pos⟩).plane.zoomFactorY
        = p.zoomFactorY ∧
      (p.mousePressEvent ⟨MouseButton.RightButton, pos⟩).plane.zoomCenter
        = p.zoomCenter ∧
      (p.mousePressEvent ⟨MouseButton.RightButton, pos⟩).plane.rubberBandZoomConfigHistory
        = p.rubberBandZoomConfigHistory ∧
      (p.mousePressEvent ⟨MouseButton.RightButton, pos⟩).accepted = false) := by
  constructor
  · intro config rest hen hhist
    rw [mousePressEvent_right_pop p config rest pos hen hhist]
    exact ⟨rfl, rfl, rfl, rfl⟩
  · intro hdis
    rw [mousePressEvent_right_idle p pos (Or.inl hdis)]
    exact ⟨rfl, rfl, rfl, rfl, rfl, rfl⟩

/-- Witness for claim C5 (amended): the sample plane with one history entry, with
rubber-band zooming enabled and with it disabled. -/
theorem right_press_pops_and_applies_witness :
    (samplePlaneWithHistory true).enableRubberBandZooming = true ∧
    (samplePlaneWithHistory true).rubberBandZoomConfigHistory
      = [(⟨2, 3, 1 / 4, 3 / 4⟩ : ZoomParameters)] ∧
    ((samplePlaneWithHistory true).mousePressEvent
        ⟨MouseButton.RightButton, ⟨0, 0⟩⟩).plane.rubberBandZoomConfigHistory = [] ∧
    ((samplePlaneWithHistory true).mousePressEvent
        ⟨MouseButton.RightButton, ⟨0, 0⟩⟩).plane.zoomFactorX = 2 ∧
    (samplePlaneWithHistory false).enableRubberBandZooming = false ∧
    ((samplePlaneWithHistory false).mousePressEvent
        ⟨MouseButton.RightButton, ⟨0, 0⟩⟩).plane = samplePlaneWithHistory false :=
  ⟨rfl, rfl,
    ((right_press_pops_and_applies (samplePlaneWithHistory true) ⟨0, 0⟩).1
      ⟨2, 3, 1 / 4, 3 / 4⟩ [] rfl rfl).1,
    ((right_press_pops_and_applies (samplePlaneWithHistory true) ⟨0, 0⟩).1
      ⟨2, 3, 1 / 4, 3 / 4⟩ [] rfl rfl).2.1,
    rfl,
    ((right_press_pops_and_applies (samplePlaneWithHistory false) ⟨0, 0⟩).2 rfl).1⟩

/-- Claim C6: for every plane state whose zoom history is empty, a right-button
press leaves the whole state of the plane (zoom factors, zoom center, history,
selection state, geometry) unchanged and the plane does not accept the event. -/
theorem right_press_empty_history_noop (p : Plane) (pos : QPoint)
    (hhist : p.rubberBandZoomConfigHistory = []) :
    (p.mousePressEvent ⟨MouseButton.RightButton, pos⟩).plane = p ∧
    (p.mousePressEvent ⟨MouseButton.RightButton, pos⟩).accepted = false := by
  rw [mousePressEvent_right_idle p pos (Or.inr hhist)]
  exact ⟨rfl, rfl⟩

/-- Witness for claim C6: the sample plane, whose history is empty. -/
theorem right_press_empty_history_noop_witness :
    samplePlane.rubberBandZoomConfigHistory = [] ∧
    (samplePlane.mousePressEvent ⟨MouseButton.RightButton, ⟨5, 5⟩⟩).plane = samplePlane ∧
    (samplePlane.mousePressEvent ⟨MouseButton.RightButton, ⟨5, 5⟩⟩).accepted = false :=
  ⟨rfl, right_press_empty_history_noop samplePlane ⟨5, 5⟩ rfl⟩

/-- The intersection with a rectangle of width 0 has no positive width. -/
theorem QRect.intersected_width_of_zero (a b : QRect) (hb : b.width = 0) :
    (a.intersected b).width ≤ 0 := by
  unfold QRect.width at hb
  unfold QRect.intersected
  have hb2 : ¬ (b.x2 - b.x1 + 1 < 0) := by omega
  simp only [hb2, if_false]
  split_ifs <;> simp only [QRect.width, QRect.null] <;> omega

/-- The intersection with a rectangle of height 0 has no positive height. -/
theorem QRect.intersected_height_of_zero (a b : QRect) (hb : b.height = 0) :
    (a.intersected b).height ≤ 0 := by
  unfold QRect.height at hb
  unfold QRect.intersected
  have hb2 : ¬ (b.y2 - b.y1 + 1 < 0) := by omega
  simp only [hb2, if_false]
  split_ifs <;> simp only [QRect.height, QRect.null] <;> omega

/-- A move while selecting replaces the selection by the clipped rectangle and
touches nothing else. -/
theorem mouseMoveEvent_of_selecting (p : Plane) (band : QRect) (event : QMouseEvent)
    (hband : p.rubberBand = some band) :
    (p.mouseMoveEvent event).plane =
      { p with
        rubberBand :=
          some ((QRect.ofPoints p.rubberBandOrigin event.pos).normalized.intersected
            p.geometry) } := by
  unfold mouseMoveEvent
  rw [hband]

/-- Claim C7 as stated fails: on a plane of width 0 with zoom factor X 1 and an
active selection of 10 by 10 pixels, the release does compute new zoom
parameters and sets zoom factor X to 0. -/
theorem release_flat_plane_changes_zoom :
    flatPlaneSelecting.geometry.width = 0 ∧
    flatPlaneSelecting.rubberBand = some (QRect.ofXYWH 0 0 10 10) ∧
    flatPlaneSelecting.zoomFactorX = 1 ∧
    (flatPlaneSelecting.mouseReleaseEvent
        ⟨MouseButton.LeftButton, ⟨9, 9⟩⟩).plane.zoomFactorX = 0 := by
  refine ⟨by decide, rfl, rfl, ?_⟩
  rw [mouseReleaseEvent_of_extent _ (QRect.ofXYWH 0 0 10 10) _ rfl (by decide) (by decide)]
  simp [releaseZoom, flatPlaneSelecting, samplePlane, QRect.ofXYWH, QRect.width]

/-- Claim C7, amended: `mouseReleaseEvent` guards the computation only by the
extent of the selection. If the plane geometry has zero width or zero height and
the selection rectangle was set by `mouseMoveEvent` on that geometry, the
clipped selection has no positive extent, and the release that follows leaves
zoom factor X, zoom factor Y and the zoom center unchanged. -/
theorem release_after_move_on_flat_plane (p : Plane) (band : QRect)
    (move release : QMouseEvent) (hband : p.rubberBand = some band)
    (hflat : p.geometry.width = 0 ∨ p.geometry.height = 0) :
    ((p.mouseMoveEvent move).plane.mouseReleaseEvent release).plane.zoomFactorX
      = p.zoomFactorX ∧
    ((p.mouseMoveEvent move).plane.mouseReleaseEvent release).plane.zoomFactorY
      = p.zoomFactorY ∧
    ((p.mouseMoveEvent move).plane.mouseReleaseEvent release).plane.zoomCenter
      = p.zoomCenter := by
  have hguard :
      ¬ (0 < ((QRect.ofPoints p.rubberBandOrigin move.pos).normalized.intersected
              p.geometry).width ∧
          0 < ((QRect.ofPoints p.rubberBandOrigin move.pos).normalized.intersected
              p.geometry).height) := by
    rcases hflat with h | h
    · have := QRect.intersected_width_of_zero
        (QRect.ofPoints p.rubberBandOrigin move.pos).normalized p.geometry h
      omega
    · have := QRect.intersected_height_of_zero
        (QRect.ofPoints p.rubberBandOrigin move.pos).normalized p.geometry h
      omega
  rw [mouseReleaseEvent_of_no_extent (p.mouseMoveEvent move).plane _ release
    (by rw [mouseMoveEvent_of_selecting p band move hband]) hguard]
  rw [mouseMoveEvent_of_selecting p band move hband]
  exact ⟨rfl, rfl, rfl⟩

/-- Witness for claim C7 (amended): a move and a release on the plane of width 0. -/
theorem release_after_move_on_flat_plane_witness :
    flatPlaneSelecting.rubberBand = some (QRect.ofXYWH 0 0 10 10) ∧
    (flatPlaneSelecting.geometry.width = 0 ∨ flatPlaneSelecting.geometry.height = 0) ∧
    ((flatPlaneSelecting.mouseMoveEvent ⟨MouseButton.NoButton, ⟨20, 20⟩⟩).plane.mouseReleaseEvent
        ⟨MouseButton.LeftButton, ⟨20, 20⟩⟩).plane.zoomFactorX = 1 :=
  ⟨rfl, Or.inl (by decide),
    (release_after_move_on_flat_plane flatPlaneSelecting (QRect.ofXYWH 0 0 10 10)
      ⟨MouseButton.NoButton, ⟨20, 20⟩⟩ ⟨MouseButton.LeftButton, ⟨20, 20⟩⟩ rfl
      (Or.inl (by decide))).1⟩

end KDChart

/-! ## Theorems: the global scaling stack and absolute measures -/

namespace KDChart

open KDChartEnums

namespace GlobalMeasureScaling

/-- Each mutator keeps the bottom entry of a non-empty factor stack. -/
theorem step_getLast (g : GlobalMeasureScaling) (c : Call) (e : ℚ × ℚ)
    (h : g.mFactors.getLast? = some e) : (g.step c).mFactors.getLast? = some e := by
  obtain ⟨l⟩ := g
  cases c with
  | setFactors fx fy =>
    cases l with
    | nil => simp at h
    | cons a t => simpa [step, setFactors, List.getLast?_cons_cons] using h
  | resetFactors =>
    cases l with
    | nil => simp at h
    | cons a t =>
      cases t with
      | nil => simpa [step, resetFactors] using h
      | cons b u => simpa [step, resetFactors, List.getLast?_cons_cons] using h

/-- A run of calls keeps the bottom entry of a non-empty factor stack. -/
theorem run_getLast (calls : List Call) (g : GlobalMeasureScaling) (e : ℚ × ℚ)
    (h : g.mFactors.getLast? = some e) : (g.run calls).mFactors.getLast? = some e := by
  induction calls generalizing g with
  | nil => exact h
  | cons c cs ih => exact ih (g.step c) (step_getLast g c e h)

end GlobalMeasureScaling

open GlobalMeasureScaling

/-- Claim C8: after every finite sequence of `setFactors` and `resetFactors`
calls applied to the initial state, the factor stack has at least one entry, its
bottom entry is the identity pair `(1, 1)` and `currentFactors` is defined;
`resetFactors` on a stack that holds a single entry leaves it unchanged. -/
theorem factor_stack_keeps_identity_floor (calls : List Call) :
    1 ≤ (init.run calls).mFactors.length ∧
    (init.run calls).mFactors.getLast? = some ((1 : ℚ), (1 : ℚ)) ∧
    (init.run calls).currentFactors.isSome = true ∧
    (∀ e : ℚ × ℚ, resetFactors ⟨[e]⟩ = ⟨[e]⟩) ∧
    init.resetFactors = init := by
  have hlast : (init.run calls).mFactors.getLast? = some ((1 : ℚ), (1 : ℚ)) :=
    run_getLast calls init _ rfl
  have hne : (init.run calls).mFactors ≠ [] := by
    intro h
    rw [h] at hlast
    simp at hlast
  refine ⟨?_, hlast, ?_, ?_, ?_⟩
  · exact List.length_pos.mpr hne
  · unfold currentFactors
    cases hl : (init.run calls).mFactors with
    | nil => exact absurd hl hne
    | cons a t => rfl
  · intro e
    simp [resetFactors]
  · simp [resetFactors, init]

/-- Claim C9: for every factor stack with at least one entry and every pair
`(x, y)`, after `setFactors(x, y)` the current factors are `(x, y)`, and a
following `resetFactors()` gives back exactly the stack, and therefore the
current factors, of before the `setFactors` call. -/
theorem setFactors_then_resetFactors (g : GlobalMeasureScaling) (x y : ℚ)
    (hne : g.mFactors ≠ []) :
    (g.setFactors x y).currentFactors = some (x, y) ∧
    (g.setFactors x y).resetFactors = g ∧
    (g.setFactors x y).resetFactors.currentFactors = g.currentFactors := by
  have hreset : (g.setFactors x y).resetFactors = g := by
    obtain ⟨l⟩ := g
    cases l with
    | nil => exact absurd rfl hne
    | cons a t => simp [setFactors, resetFactors]
  exact ⟨rfl, hreset, by rw [hreset]⟩

/-- Witness for claim C9: a push and a pop on the initial stack. -/
theorem setFactors_then_resetFactors_witness :
    init.mFactors ≠ [] ∧
    (init.setFactors 2 3).currentFactors = some ((2 : ℚ), (3 : ℚ)) ∧
    (init.setFactors 2 3).resetFactors = init :=
  ⟨by simp [init],
    (setFactors_then_resetFactors init 2 3 (by simp [init])).1,
    (setFactors_then_resetFactors init 2 3 (by simp [init])).2.1⟩

/-- Claim C10: a `Measure` in Absolute mode resolves to its stored value, for
every auto size and every auto area, every auto orientation, every reference
area and reference orientation of the measure and every state of the global
scaling stack (for the auto-area overload, every state in which
`currentFactors` is defined, which `sizeOfArea` reads first). -/
theorem calculatedValue_absolute (m : Measure)
    (hmode : m.mMode = MeasureCalculationMode.MeasureCalculationModeAbsolute) :
    (∀ (g : GlobalMeasureScaling) (autoSize : QSizeF) (autoOrientation : MeasureOrientation),
      m.calculatedValue g autoSize autoOrientation = some m.mValue) ∧
    (∀ (g : GlobalMeasureScaling) (autoArea : Option QObject)
        (autoOrientation : MeasureOrientation),
      g.mFactors ≠ [] → m.calculatedValueOfArea g autoArea autoOrientation = some m.mValue) := by
  have hsize : ∀ (g : GlobalMeasureScaling) (autoSize : QSizeF)
      (autoOrientation : MeasureOrientation),
      m.calculatedValue g autoSize autoOrientation = some m.mValue := by
    intro g autoSize autoOrientation
    unfold Measure.calculatedValue
    rw [if_pos hmode]
  refine ⟨hsize, ?_⟩
  intro g autoArea autoOrientation hne
  unfold Measure.calculatedValueOfArea Measure.sizeOfArea
  obtain ⟨l⟩ := g
  cases l with
  | nil => exact absurd rfl hne
  | cons a t =>
    simp only [currentFactors, List.head?_cons]
    exact hsize _ _ _

/-- Witness for claim C10: after `setFactors(2.0, 2.0)` an Absolute measure of
value 50 still resolves to 50, through both overloads. -/
theorem calculatedValue_absolute_witness :
    (Measure.mk 50 MeasureCalculationMode.MeasureCalculationModeAbsolute none
        MeasureOrientation.MeasureOrientationHorizontal).mMode
      = MeasureCalculationMode.MeasureCalculationModeAbsolute ∧
    (Measure.mk 50 MeasureCalculationMode.MeasureCalculationModeAbsolute none
        MeasureOrientation.MeasureOrientationHorizontal).calculatedValue
        (init.setFactors 2 2) ⟨200, 100⟩ MeasureOrientation.MeasureOrientationVertical
      = some 50 ∧
    (Measure.mk 50 MeasureCalculationMode.MeasureCalculationModeAbsolute none
        MeasureOrientation.MeasureOrientationHorizontal).calculatedValueOfArea
        (init.setFactors 2 2) (some (QObject.widget (QRect.ofXYWH 0 0 200 100)))
        MeasureOrientation.MeasureOrientationVertical
      = some 50 :=
  ⟨rfl,
    (calculatedValue_absolute
      (Measure.mk 50 MeasureCalculationMode.MeasureCalculationModeAbsolute none
        MeasureOrientation.MeasureOrientationHorizontal) rfl).1 _ _ _,
    (calculatedValue_absolute
      (Measure.mk 50 MeasureCalculationMode.MeasureCalculationModeAbsolute none
        MeasureOrientation.MeasureOrientationHorizontal) rfl).2 _ _ _
      (by simp [setFactors])⟩

end KDChart

/-! ## Theorems: relative measures -/

namespace KDChart

open KDChartEnums GlobalMeasureScaling

/-- Outside Absolute mode `calculatedValue` is `mValue / 1000` times the
reference value, for the effective orientation, of the auto size or of the size
of the reference area. -/
theorem Measure.calculatedValue_of_relative (m : Measure) (g : GlobalMeasureScaling)
    (autoSize : QSizeF) (autoOrientation : MeasureOrientation)
    (hmode : m.mMode ≠ MeasureCalculationMode.MeasureCalculationModeAbsolute) :
    m.calculatedValue g autoSize autoOrientation =
      match (match m.effectiveArea with
             | none => some autoSize
             | some a => m.sizeOfArea g (some a)) with
      | some sz =>
        some (m.mValue / 1000
          * Measure.referenceValue (m.effectiveOrientation autoOrientation) sz)
      | none => none := by
  obtain ⟨v, mode, area, orient⟩ := m
  cases mode <;>
    first
    | exact absurd rfl hmode
    | (cases area <;> rfl)

/-- With defined current factors, `sizeOfArea` of a null pointer or of an object
that is neither chart area nor widget is the unit size times the factors,
outside Absolute mode. -/
theorem Measure.sizeOfArea_of_no_area (m : Measure) (g : GlobalMeasureScaling)
    (fx fy : ℚ) (autoArea : Option QObject)
    (hmode : m.mMode ≠ MeasureCalculationMode.MeasureCalculationModeAbsolute)
    (hauto : autoArea = none ∨ autoArea = some QObject.other)
    (hg : g.currentFactors = some (fx, fy)) :
    m.sizeOfArea g autoArea = some ⟨fx, fy⟩ := by
  unfold Measure.sizeOfArea
  rw [hg]
  rcases hauto with h | h <;> subst h <;> simp [hmode]

/-- With defined current factors, `sizeOfArea` of a chart area or of a widget is
the size of its geometry times the factors. -/
theorem Measure.sizeOfArea_of_geometry (m : Measure) (g : GlobalMeasureScaling)
    (fx fy : ℚ) (geometry : QRect) (hg : g.currentFactors = some (fx, fy)) :
    m.sizeOfArea g (some (QObject.abstractArea geometry))
      = some ⟨(geometry.width : ℚ) * fx, (geometry.height : ℚ) * fy⟩ ∧
    m.sizeOfArea g (some (QObject.widget geometry))
      = some ⟨(geometry.width : ℚ) * fx, (geometry.height : ℚ) * fy⟩ := by
  unfold Measure.sizeOfArea
  rw [hg]
  exact ⟨rfl, rfl⟩

/-- Claim C11 as stated fails: with current factors `(2, 2)`, a measure of value
250 in mode Auto resolves the auto size `(200, 100)` with orientation Horizontal
to `250/1000 * 200 = 50`, not to `250/1000 * 200 * 2 = 100`. -/
theorem calculatedValue_size_ignores_factors :
    (sampleMeasure MeasureCalculationMode.MeasureCalculationModeAuto).mMode
      ≠ MeasureCalculationMode.MeasureCalculationModeAbsolute ∧
    (init.setFactors 2 2).currentFactors = some ((2 : ℚ), (2 : ℚ)) ∧
    (sampleMeasure MeasureCalculationMode.MeasureCalculationModeAuto).calculatedValue
        (init.setFactors 2 2) ⟨200, 100⟩ MeasureOrientation.MeasureOrientationHorizontal
      = some 50 ∧
    (sampleMeasure MeasureCalculationMode.MeasureCalculationModeAuto).calculatedValue
        (init.setFactors 2 2) ⟨200, 100⟩ MeasureOrientation.MeasureOrientationHorizontal
      ≠ some ((250 : ℚ) / 1000 * 200 * 2) := by
  have h : (sampleMeasure MeasureCalculationMode.MeasureCalculationModeAuto).calculatedValue
        (init.setFactors 2 2) ⟨200, 100⟩ MeasureOrientation.MeasureOrientationHorizontal
      = some 50 := by
    rw [Measure.calculatedValue_of_relative _ _ _ _ (by decide)]
    simp only [Measure.effectiveArea, Measure.effectiveOrientation, sampleMeasure,
      Measure.referenceValue]
    norm_num
  refine ⟨by decide, rfl, h, ?_⟩
  rw [h]
  norm_num

/-- Claim C11, amended: for a `Measure` in a non-Absolute mode whose effective
area is the auto area, `calculatedValue(QSizeF(w, h), orientation)` uses the
size as it is passed and returns `value/1000 * w` when the effective orientation
is Horizontal and `value/1000 * h` when it is Vertical, whatever the global
factors. The global factors `(fx, fy)` enter through `sizeOfArea` only:
`calculatedValue(autoArea, orientation)` for a chart area or widget whose
geometry has size `(w, h)` returns `value/1000 * (w * fx)` for Horizontal and
`value/1000 * (h * fy)` for Vertical. -/
theorem calculatedValue_scaling_by_overload (m : Measure) (g : GlobalMeasureScaling)
    (autoOrientation : MeasureOrientation)
    (hmode : m.mMode ≠ MeasureCalculationMode.MeasureCalculationModeAbsolute)
    (harea : m.effectiveArea = none) :
    (∀ w h : ℚ,
      (m.effectiveOrientation autoOrientation = MeasureOrientation.MeasureOrientationHorizontal →
        m.calculatedValue g ⟨w, h⟩ autoOrientation = some (m.mValue / 1000 * w)) ∧
      (m.effectiveOrientation autoOrientation = MeasureOrientation.MeasureOrientationVertical →
        m.calculatedValue g ⟨w, h⟩ autoOrientation = some (m.mValue / 1000 * h))) ∧
    (∀ (fx fy : ℚ) (geometry : QRect) (autoArea : QObject),
      g.currentFactors = some (fx, fy) →
      autoArea = QObject.abstractArea geometry ∨ autoArea = QObject.widget geometry →
      (m.effectiveOrientation autoOrientation = MeasureOrientation.MeasureOrientationHorizontal →
        m.calculatedValueOfArea g (some autoArea) autoOrientation
          = some (m.mValue / 1000 * ((geometry.width : ℚ) * fx))) ∧
      (m.effectiveOrientation autoOrientation = MeasureOrientation.MeasureOrientationVertical →
        m.calculatedValueOfArea g (some autoArea) autoOrientation
          = some (m.mValue / 1000 * ((geometry.height : ℚ) * fy)))) := by
  have hsize : ∀ sz : QSizeF, m.calculatedValue g sz autoOrientation
      = some (m.mValue / 1000
          * Measure.referenceValue (m.effectiveOrientation autoOrientation) sz) := by
    intro sz
    rw [Measure.calculatedValue_of_relative m g sz autoOrientation hmode, harea]
  constructor
  · intro w h
    constructor
    · intro ho
      rw [hsize, ho]
      rfl
    · intro ho
      rw [hsize, ho]
      rfl
  · intro fx fy geometry autoArea hg hkind
    have hsz : m.sizeOfArea g (some autoArea)
        = some ⟨(geometry.width : ℚ) * fx, (geometry.height : ℚ) * fy⟩ := by
      rcases hkind with h | h <;> subst h
      · exact (Measure.sizeOfArea_of_geometry m g fx fy geometry hg).1
      · exact (Measure.sizeOfArea_of_geometry m g fx fy geometry hg).2
    constructor
    · intro ho
      unfold Measure.calculatedValueOfArea
      rw [hsz]
      simp only []
      rw [hsize, ho]
      rfl
    · intro ho
      unfold Measure.calculatedValueOfArea
      rw [hsz]
      simp only []
      rw [hsize, ho]
      rfl

/-- Witness for claim C11 (amended): the measure of value 250 in mode Auto under
the factors `(2, 2)`, with the auto size `(200, 100)` and with a widget of that
size. -/
theorem calculatedValue_scaling_by_overload_witness :
    (sampleMeasure MeasureCalculationMode.MeasureCalculationModeAuto).mMode
      ≠ MeasureCalculationMode.MeasureCalculationModeAbsolute ∧
    (sampleMeasure MeasureCalculationMode.MeasureCalculationModeAuto).effectiveArea = none ∧
    (sampleMeasure MeasureCalculationMode.MeasureCalculationModeAuto).calculatedValue
        (init.setFactors 2 2) ⟨200, 100⟩ MeasureOrientation.MeasureOrientationHorizontal
      = some (250 / 1000 * 200) ∧
    (sampleMeasure MeasureCalculationMode.MeasureCalculationModeAuto).calculatedValueOfArea
        (init.setFactors 2 2) (some (QObject.widget (QRect.ofXYWH 0 0 200 100)))
        MeasureOrientation.MeasureOrientationHorizontal
      = some (250 / 1000 * (((QRect.ofXYWH 0 0 200 100).width : ℚ) * 2)) :=
  ⟨by decide, rfl,
    ((calculatedValue_scaling_by_overload
      (sampleMeasure MeasureCalculationMode.MeasureCalculationModeAuto) (init.setFactors 2 2)
      MeasureOrientation.MeasureOrientationHorizontal (by decide) rfl).1 200 100).1 rfl,
    ((calculatedValue_scaling_by_overload
      (sampleMeasure MeasureCalculationMode.MeasureCalculationModeAuto) (init.setFactors 2 2)
      MeasureOrientation.MeasureOrientationHorizontal (by decide) rfl).2 2 2
      (QRect.ofXYWH 0 0 200 100) (QObject.widget (QRect.ofXYWH 0 0 200 100)) rfl
      (Or.inr rfl)).1 rfl⟩

/-- Claim C12: for a `Measure` without reference area, in the modes Auto and
AutoOrientation `calculatedValue(QSizeF(w, h), autoOrientation)` is
`value/1000 * c` with `c` picked by `autoOrientation`, and in the modes Relative
and AutoArea with `c` picked by the reference orientation of the measure, for
every state of the global factors and so for the factors `(1, 1)`; `c` is
`min(w, h)` for Minimum and for Auto, `max(w, h)` for Maximum, `w` for Horizontal
and `h` for Vertical. In mode Auto the result is the same for every reference
area and reference orientation of the measure. -/
theorem calculatedValue_without_reference_area (m : Measure) (g : GlobalMeasureScaling)
    (w h : ℚ) (autoOrientation : MeasureOrientation) (harea : m.mArea = none) :
    ((m.mMode = MeasureCalculationMode.MeasureCalculationModeAuto ∨
        m.mMode = MeasureCalculationMode.MeasureCalculationModeAutoOrientation) →
      m.calculatedValue g ⟨w, h⟩ autoOrientation
        = some (m.mValue / 1000 * Measure.referenceValue autoOrientation ⟨w, h⟩)) ∧
    ((m.mMode = MeasureCalculationMode.MeasureCalculationModeRelative ∨
        m.mMode = MeasureCalculationMode.MeasureCalculationModeAutoArea) →
      m.calculatedValue g ⟨w, h⟩ autoOrientation
        = some (m.mValue / 1000 * Measure.referenceValue m.mOrientation ⟨w, h⟩)) ∧
    (Measure.referenceValue MeasureOrientation.MeasureOrientationMinimum ⟨w, h⟩ = min w h ∧
      Measure.referenceValue MeasureOrientation.MeasureOrientationAuto ⟨w, h⟩ = min w h ∧
      Measure.referenceValue MeasureOrientation.MeasureOrientationMaximum ⟨w, h⟩ = max w h ∧
      Measure.referenceValue MeasureOrientation.MeasureOrientationHorizontal ⟨w, h⟩ = w ∧
      Measure.referenceValue MeasureOrientation.MeasureOrientationVertical ⟨w, h⟩ = h) ∧
    (∀ (area : Option QObject) (orientation : MeasureOrientation),
      (Measure.mk m.mValue MeasureCalculationMode.MeasureCalculationModeAuto area
          orientation).calculatedValue g ⟨w, h⟩ autoOrientation
        = some (m.mValue / 1000 * Measure.referenceValue autoOrientation ⟨w, h⟩)) := by
  obtain ⟨v, mode, area, orient⟩ := m
  simp only at harea
  subst harea
  refine ⟨?_, ?_, ⟨rfl, rfl, rfl, rfl, rfl⟩, ?_⟩
  · rintro (hm | hm) <;> simp only at hm <;> subst hm <;> rfl
  · rintro (hm | hm) <;> simp only at hm <;> subst hm <;> rfl
  · intro area orientation
    rfl

/-- Witness for claim C12: Relative mode, area size `(200, 100)`, value 250,
reference orientation Horizontal, factors `(1, 1)`: the result is 50. -/
theorem calculatedValue_without_reference_area_witness :
    (sampleMeasure MeasureCalculationMode.MeasureCalculationModeRelative).mArea = none ∧
    init.currentFactors = some ((1 : ℚ), (1 : ℚ)) ∧
    (sampleMeasure MeasureCalculationMode.MeasureCalculationModeRelative).calculatedValue
        init ⟨200, 100⟩ MeasureOrientation.MeasureOrientationVertical
      = some 50 := by
  refine ⟨rfl, rfl, ?_⟩
  rw [(calculatedValue_without_reference_area
    (sampleMeasure MeasureCalculationMode.MeasureCalculationModeRelative) init 200 100
    MeasureOrientation.MeasureOrientationVertical rfl).2.1 (Or.inl rfl)]
  simp only [sampleMeasure, Measure.referenceValue]
  norm_num

/-- Claim C13: for a `Measure` in a non-Absolute mode without reference area and
defined current factors `(fx, fy)`, `calculatedValue(autoArea, orientation)` with
an auto area that is null or neither chart area nor widget returns a value. With
the effective orientation `o` (the auto orientation in the modes Auto and
AutoOrientation, the reference orientation of the measure in the modes Relative
and AutoArea) the value is `value/1000 * fx` for Horizontal, `value/1000 * fy`
for Vertical, `value/1000 * min(fx, fy)` for Minimum and for Auto and
`value/1000 * max(fx, fy)` for Maximum: the selected component of the unit size
`(1, 1)` scaled by the factors. It is `value/1000` for every orientation when
the factors are `(1, 1)`. -/
theorem calculatedValueOfArea_without_area (m : Measure) (g : GlobalMeasureScaling)
    (fx fy : ℚ) (autoArea : Option QObject) (autoOrientation : MeasureOrientation)
    (hmode : m.mMode ≠ MeasureCalculationMode.MeasureCalculationModeAbsolute)
    (harea : m.mArea = none)
    (hauto : autoArea = none ∨ autoArea = some QObject.other)
    (hg : g.currentFactors = some (fx, fy)) :
    (∀ o : MeasureOrientation,
      (((m.mMode = MeasureCalculationMode.MeasureCalculationModeAuto ∨
            m.mMode = MeasureCalculationMode.MeasureCalculationModeAutoOrientation) ∧
          autoOrientation = o) ∨
        ((m.mMode = MeasureCalculationMode.MeasureCalculationModeRelative ∨
            m.mMode = MeasureCalculationMode.MeasureCalculationModeAutoArea) ∧
          m.mOrientation = o)) →
      (o = MeasureOrientation.MeasureOrientationHorizontal →
        m.calculatedValueOfArea g autoArea autoOrientation
          = some (m.mValue / 1000 * (1 * fx))) ∧
      (o = MeasureOrientation.MeasureOrientationVertical →
        m.calculatedValueOfArea g autoArea autoOrientation
          = some (m.mValue / 1000 * (1 * fy))) ∧
      (o = MeasureOrientation.MeasureOrientationMinimum ∨
          o = MeasureOrientation.MeasureOrientationAuto →
        m.calculatedValueOfArea g autoArea autoOrientation
          = some (m.mValue / 1000 * min (1 * fx) (1 * fy))) ∧
      (o = MeasureOrientation.MeasureOrientationMaximum →
        m.calculatedValueOfArea g autoArea autoOrientation
          = some (m.mValue / 1000 * max (1 * fx) (1 * fy)))) ∧
    (m.calculatedValueOfArea g autoArea autoOrientation).isSome = true ∧
    (fx = 1 → fy = 1 →
      m.calculatedValueOfArea g autoArea autoOrientation = some (m.mValue / 1000)) := by
  have hsz := Measure.sizeOfArea_of_no_area m g fx fy autoArea hmode hauto hg
  have hval : m.calculatedValueOfArea g autoArea autoOrientation
      = some (m.mValue / 1000
          * Measure.referenceValue (m.effectiveOrientation autoOrientation) ⟨fx, fy⟩) := by
    unfold Measure.calculatedValueOfArea
    rw [hsz]
    simp only []
    rw [Measure.calculatedValue_of_relative m g _ autoOrientation hmode]
    have he : m.effectiveArea = none := by
      unfold Measure.effectiveArea
      rw [harea]
      cases m.mMode <;> rfl
    rw [he]
  refine ⟨?_, ?_, ?_⟩
  · intro o ho
    have heff : m.effectiveOrientation autoOrientation = o := by
      rcases ho with ⟨hm | hm, hor⟩ | ⟨hm | hm, hor⟩ <;>
        simp only [Measure.effectiveOrientation, hm, hor]
    rw [hval, heff, one_mul, one_mul]
    refine ⟨?_, ?_, ?_, ?_⟩
    · intro h; rw [h]; rfl
    · intro h; rw [h]; rfl
    · rintro (h | h) <;> rw [h] <;> rfl
    · intro h; rw [h]; rfl
  · rw [hval]
    rfl
  · intro h1 h2
    rw [hval, h1, h2]
    have : Measure.referenceValue (m.effectiveOrientation autoOrientation) ⟨1, 1⟩ = 1 := by
      cases m.effectiveOrientation autoOrientation <;> simp [Measure.referenceValue]
    rw [this, mul_one]

/-- Witness for claim C13: the measure of value 250 in Relative mode with
reference orientation Horizontal and a null auto area, under the factors
`(2, 3)` and under the initial factors `(1, 1)`. -/
theorem calculatedValueOfArea_without_area_witness :
    (sampleMeasure MeasureCalculationMode.MeasureCalculationModeRelative).mMode
      ≠ MeasureCalculationMode.MeasureCalculationModeAbsolute ∧
    (sampleMeasure MeasureCalculationMode.MeasureCalculationModeRelative).mArea = none ∧
    (init.setFactors 2 3).currentFactors = some ((2 : ℚ), (3 : ℚ)) ∧
    (sampleMeasure MeasureCalculationMode.MeasureCalculationModeRelative).calculatedValueOfArea
        (init.setFactors 2 3) none MeasureOrientation.MeasureOrientationMaximum
      = some (250 / 1000 * (1 * 2)) ∧
    init.currentFactors = some ((1 : ℚ), (1 : ℚ)) ∧
    (sampleMeasure MeasureCalculationMode.MeasureCalculationModeRelative).calculatedValueOfArea
        init none MeasureOrientation.MeasureOrientationMaximum
      = some ((sampleMeasure MeasureCalculationMode.MeasureCalculationModeRelative).mValue
          / 1000) :=
  ⟨by decide, rfl, rfl,
    (((calculatedValueOfArea_without_area
      (sampleMeasure MeasureCalculationMode.MeasureCalculationModeRelative)
      (init.setFactors 2 3) 2 3 none
      MeasureOrientation.MeasureOrientationMaximum (by decide) rfl (Or.inl rfl) rfl).1
      MeasureOrientation.MeasureOrientationHorizontal
      (Or.inr ⟨Or.inl rfl, rfl⟩)).1 rfl),
    rfl,
    (calculatedValueOfArea_without_area
      (sampleMeasure MeasureCalculationMode.MeasureCalculationModeRelative) init 1 1 none
      MeasureOrientation.MeasureOrientationMaximum (by decide) rfl (Or.inl rfl) rfl).2.2
      rfl rfl⟩

end KDChart

/-! ## Theorems: diagram registry and geometry -/

namespace KDChart

namespace Scene

/-- Removing the element at the first index of `a` erases the first `a`. -/
theorem eraseIdx_indexOf (l : List DiagramId) (a : DiagramId) :
    l.eraseIdx (l.indexOf a) = l.erase a := by
  induction l with
  | nil => rfl
  | cons b t ih =>
    by_cases h : b = a
    · subst h
      simp
    · have h2 : ¬ (b == a) = true := by simpa using h
      rw [List.indexOf_cons, List.erase_cons]
      simp only [h2, if_false, cond_false]
      rw [List.eraseIdx_cons_succ, ih]
      simp

/-- The fields of the scene after `addDiagram`. -/
theorem addDiagram_fields (s : Scene) (d : DiagramId) :
    (s.addDiagram d).plane = { s.plane with diagrams := s.plane.diagrams ++ [d] } ∧
    (s.addDiagram d).self = s.self ∧
    (s.addDiagram d).parent = s.parent ∧
    (s.addDiagram d).diagramState d = ⟨s.parent, some s.self, true⟩ ∧
    (∀ k, k ≠ d → (s.addDiagram d).diagramState k = s.diagramState k) ∧
    (s.addDiagram d).connections
      = s.connections ++ [connModelsChanged d, connDataChangedUpdate d,
          connDataChangedRelayout d, connBoundariesChanged d] ∧
    (s.addDiagram d).effects
      = s.effects ++ [Effect.layoutDiagrams, Effect.needLayoutPlanes, Effect.needUpdate,
          Effect.boundariesChanged] ∧
    (s.addDiagram d).geometryChangedQueue = s.geometryChangedQueue ∧
    (s.addDiagram d).destroyed = s.destroyed := by
  refine ⟨rfl, rfl, rfl, ?_, ?_, ?_, ?_, rfl, rfl⟩
  · simp [addDiagram, emit, update, layoutDiagrams, layoutPlanes, connect, setDiagramState,
      setCoordinatePlane, setDiagramParent, hide]
  · intro k hk
    simp [addDiagram, emit, update, layoutDiagrams, layoutPlanes, connect, setDiagramState,
      setCoordinatePlane, setDiagramParent, hide, hk]
  · simp [addDiagram, emit, update, layoutDiagrams, layoutPlanes, connect, setDiagramState,
      setCoordinatePlane, setDiagramParent, hide]
  · simp [addDiagram, emit, update, layoutDiagrams, layoutPlanes, connect, setDiagramState,
      setCoordinatePlane, setDiagramParent, hide]

/-- A diagram that is not in the list: `takeDiagram` returns the scene as it is. -/
theorem takeDiagram_of_not_mem (s : Scene) (d : DiagramId) (h : d ∉ s.plane.diagrams) :
    s.takeDiagram d = s := by
  unfold takeDiagram
  have hidx : s.plane.diagrams.indexOf d = s.plane.diagrams.length :=
    List.indexOf_eq_length.mpr h
  simp [hidx]

/-- The fields of the scene after `takeDiagram` of a diagram that is in the list. -/
theorem takeDiagram_fields (s : Scene) (d : DiagramId) (h : d ∈ s.plane.diagrams) :
    (s.takeDiagram d).plane = { s.plane with diagrams := s.plane.diagrams.erase d } ∧
    (s.takeDiagram d).self = s.self ∧
    (s.takeDiagram d).parent = s.parent ∧
    (s.takeDiagram d).diagramState d = ⟨none, none, (s.diagramState d).hidden⟩ ∧
    (∀ k, k ≠ d → (s.takeDiagram d).diagramState k = s.diagramState k) ∧
    (s.takeDiagram d).connections
      = s.connections.filter (fun k =>
          decide (k ≠ connModelsChanged d ∧ k ≠ connDataChangedUpdate d ∧
            k ≠ connDataChangedRelayout d)) ∧
    (s.takeDiagram d).effects = s.effects ++ [Effect.layoutDiagrams, Effect.needUpdate] ∧
    (s.takeDiagram d).geometryChangedQueue = s.geometryChangedQueue ∧
    (s.takeDiagram d).destroyed = s.destroyed := by
  have hidx : s.plane.diagrams.indexOf d ≠ s.plane.diagrams.length := by
    intro hc
    exact (List.indexOf_eq_length.mp hc) h
  unfold takeDiagram
  simp only [hidx, ne_eq, not_false_eq_true, if_true]
  refine ⟨?_, rfl, rfl, ?_, ?_, ?_, ?_, rfl, rfl⟩
  · simp [emit, update, layoutDiagrams, disconnect, setDiagramState, setCoordinatePlane,
      setDiagramParent, eraseIdx_indexOf]
  · simp [emit, update, layoutDiagrams, disconnect, setDiagramState, setCoordinatePlane,
      setDiagramParent]
  · intro k hk
    simp [emit, update, layoutDiagrams, disconnect, setDiagramState, setCoordinatePlane,
      setDiagramParent, hk]
  · simp [emit, update, layoutDiagrams, disconnect, setDiagramState, setCoordinatePlane,
      setDiagramParent, List.filter_filter, and_comm, and_assoc]
  · simp [emit, update, layoutDiagrams, disconnect, setDiagramState, setCoordinatePlane,
      setDiagramParent]

/-- One registry call keeps: a diagram with a back-reference is in the list. -/
theorem step_attached_of_backReference (s : Scene) (c : RegistryCall)
    (h : ∀ d, (s.diagramState d).coordinatePlane ≠ none → d ∈ s.plane.diagrams) :
    ∀ d, ((s.step c).diagramState d).coordinatePlane ≠ none
      → d ∈ (s.step c).plane.diagrams := by
  intro k hk
  cases c with
  | addDiagram d =>
    obtain ⟨hpl, -, -, hd, hother, -⟩ := addDiagram_fields s d
    show k ∈ (s.addDiagram d).plane.diagrams
    rw [hpl]
    by_cases hkd : k = d
    · subst hkd
      simp
    · have : (s.diagramState k).coordinatePlane ≠ none := by
        rw [← hother k hkd]
        exact hk
      exact List.mem_append_left _ (h k this)
  | takeDiagram d =>
    by_cases hmem : d ∈ s.plane.diagrams
    · obtain ⟨hpl, -, -, hd, hother, -⟩ := takeDiagram_fields s d hmem
      show k ∈ (s.takeDiagram d).plane.diagrams
      rw [hpl]
      by_cases hkd : k = d
      · subst hkd
        exact absurd (by rw [show s.step (RegistryCall.takeDiagram k) = s.takeDiagram k from rfl,
          hd]) hk
      · have : (s.diagramState k).coordinatePlane ≠ none := by
          rw [← hother k hkd]
          exact hk
        exact (List.mem_erase_of_ne hkd).mpr (h k this)
    · have hs : s.step (RegistryCall.takeDiagram d) = s := takeDiagram_of_not_mem s d hmem
      rw [hs] at hk ⊢
      exact h k hk

/-- A run of registry calls keeps: a diagram with a back-reference is in the list. -/
theorem run_attached_of_backReference (calls : List RegistryCall) (s : Scene)
    (h : ∀ d, (s.diagramState d).coordinatePlane ≠ none → d ∈ s.plane.diagrams) :
    ∀ d, ((s.run calls).diagramState d).coordinatePlane ≠ none
      → d ∈ (s.run calls).plane.diagrams := by
  induction calls generalizing s with
  | nil => exact h
  | cons c cs ih => exact ih (s.step c) (step_attached_of_backReference s c h)

/-- A run in which no diagram is added while it is in the list keeps: the list has
no duplicates and each of its diagrams has the back-reference to this plane. -/
theorem run_backReference_of_attached (calls : List RegistryCall) (s : Scene)
    (hnd : s.plane.diagrams.Nodup)
    (h : ∀ d, d ∈ s.plane.diagrams → (s.diagramState d).coordinatePlane = some s.self)
    (hadm : s.addsOnlyAbsent calls = true) :
    (s.run calls).plane.diagrams.Nodup ∧
    ∀ d, d ∈ (s.run calls).plane.diagrams
      → ((s.run calls).diagramState d).coordinatePlane = some s.self := by
  induction calls generalizing s with
  | nil => exact ⟨hnd, h⟩
  | cons c cs ih =>
    cases c with
    | addDiagram d =>
      simp only [addsOnlyAbsent, Bool.and_eq_true, decide_eq_true_eq] at hadm
      obtain ⟨hpl, hself, -, hd, hother, -⟩ := addDiagram_fields s d
      have hnd2 : (s.addDiagram d).plane.diagrams.Nodup := by
        rw [hpl]
        exact List.Nodup.append hnd (List.nodup_singleton d)
          (by intro k hk hk2; simp at hk2; subst hk2; exact hadm.1 hk)
      have h2 : ∀ k, k ∈ (s.addDiagram d).plane.diagrams
          → ((s.addDiagram d).diagramState k).coordinatePlane = some (s.addDiagram d).self := by
        intro k hk
        rw [hself]
        by_cases hkd : k = d
        · subst hkd
          rw [hd]
        · rw [hother k hkd]
          rw [hpl] at hk
          simp only [List.mem_append, List.mem_singleton] at hk
          rcases hk with hk | hk
          · exact h k hk
          · exact absurd hk hkd
      have := ih (s.addDiagram d) hnd2 h2 hadm.2
      rw [hself] at this
      exact this
    | takeDiagram d =>
      simp only [addsOnlyAbsent] at hadm
      by_cases hmem : d ∈ s.plane.diagrams
      · obtain ⟨hpl, hself, -, hd, hother, -⟩ := takeDiagram_fields s d hmem
        have hnd2 : (s.takeDiagram d).plane.diagrams.Nodup := by
          rw [hpl]
          exact hnd.erase d
        have h2 : ∀ k, k ∈ (s.takeDiagram d).plane.diagrams
            → ((s.takeDiagram d).diagramState k).coordinatePlane
              = some (s.takeDiagram d).self := by
          intro k hk
          rw [hself]
          rw [hpl] at hk
          obtain ⟨hkd, hkl⟩ := (List.Nodup.mem_erase_iff hnd).mp hk
          rw [hother k hkd]
          exact h k hkl
        have := ih (s.takeDiagram d) hnd2 h2 hadm
        rw [hself] at this
        exact this
      · have hs : s.takeDiagram d = s := takeDiagram_of_not_mem s d hmem
        have hrun : s.run (RegistryCall.takeDiagram d :: cs) = s.run cs := by
          show (s.takeDiagram d).run cs = s.run cs
          rw [hs]
        rw [hs] at hadm
        rw [hrun]
        exact ih s hnd h hadm

end Scene

open Scene

/-- Claim C14 as stated fails: after `addDiagram(1)`, `addDiagram(1)`,
`takeDiagram(1)` on a plane without diagrams, diagram 1 is in the diagram list
and its coordinate-plane back-reference is null. -/
theorem double_add_breaks_backReference :
    fresh.plane.diagrams = [] ∧
    (1 : DiagramId) ∈ (fresh.run [RegistryCall.addDiagram 1, RegistryCall.addDiagram 1,
        RegistryCall.takeDiagram 1]).plane.diagrams ∧
    ((fresh.run [RegistryCall.addDiagram 1, RegistryCall.addDiagram 1,
        RegistryCall.takeDiagram 1]).diagramState 1).coordinatePlane = none := by
  refine ⟨rfl, ?_, ?_⟩
  · decide
  · rfl

/-- Claim C14, amended: for every sequence of `addDiagram` and `takeDiagram` calls
on one plane, starting from an empty diagram list and diagrams without
back-reference, a diagram whose coordinate-plane back-reference is non-null is in
the diagram list; and if no `addDiagram(d)` of the sequence is made while `d` is
already in the list, then for every diagram `d` the back-reference is non-null,
and then it is this plane, if and only if `d` is in the diagram list. -/
theorem backReference_iff_attached (s0 : Scene) (calls : List RegistryCall)
    (hempty : s0.plane.diagrams = [])
    (hnull : ∀ d, (s0.diagramState d).coordinatePlane = none) :
    (∀ d, ((s0.run calls).diagramState d).coordinatePlane ≠ none
      → d ∈ (s0.run calls).plane.diagrams) ∧
    (s0.addsOnlyAbsent calls = true →
      ∀ d, (((s0.run calls).diagramState d).coordinatePlane ≠ none
          ↔ d ∈ (s0.run calls).plane.diagrams) ∧
        (d ∈ (s0.run calls).plane.diagrams
          → ((s0.run calls).diagramState d).coordinatePlane = some s0.self)) := by
  have h1 := run_attached_of_backReference calls s0
    (fun d hd => absurd (hnull d) hd)
  refine ⟨h1, ?_⟩
  intro hadm d
  have h2 := (run_backReference_of_attached calls s0 (by rw [hempty]; exact List.nodup_nil)
    (by intro k hk; rw [hempty] at hk; exact absurd hk (List.not_mem_nil k)) hadm).2
  refine ⟨⟨h1 d, ?_⟩, h2 d⟩
  intro hmem
  rw [h2 d hmem]
  simp

/-- Witness for claim C14 (amended): `addDiagram(1)`, `addDiagram(2)`,
`takeDiagram(1)` on the fresh scene leaves exactly diagram 2 attached. -/
theorem backReference_iff_attached_witness :
    fresh.plane.diagrams = [] ∧
    (∀ d, (fresh.diagramState d).coordinatePlane = none) ∧
    fresh.addsOnlyAbsent [RegistryCall.addDiagram 1, RegistryCall.addDiagram 2,
        RegistryCall.takeDiagram 1] = true ∧
    (((fresh.run [RegistryCall.addDiagram 1, RegistryCall.addDiagram 2,
        RegistryCall.takeDiagram 1]).diagramState 2).coordinatePlane ≠ none
      ↔ (2 : DiagramId) ∈ (fresh.run [RegistryCall.addDiagram 1, RegistryCall.addDiagram 2,
        RegistryCall.takeDiagram 1]).plane.diagrams) :=
  ⟨rfl, fun _ => rfl, by decide,
    (((backReference_iff_attached fresh [RegistryCall.addDiagram 1, RegistryCall.addDiagram 2,
        RegistryCall.takeDiagram 1] rfl (fun _ => rfl)).2 (by decide)) 2).1⟩

/-- Claim C15, evaluated on the code: after `addDiagram(d)` and `takeDiagram(d)` the
three connections from `d` to the plane are gone, but the connection
`plane.boundariesChanged -> d.boundariesChanged` that `addDiagram` made is still
there; on the fresh scene it is the only connection left. -/
theorem takeDiagram_leaves_boundariesChanged (s : Scene) (d : DiagramId) :
    connBoundariesChanged d ∈ ((s.addDiagram d).takeDiagram d).connections ∧
    connModelsChanged d ∉ ((s.addDiagram d).takeDiagram d).connections ∧
    connDataChangedUpdate d ∉ ((s.addDiagram d).takeDiagram d).connections ∧
    connDataChangedRelayout d ∉ ((s.addDiagram d).takeDiagram d).connections ∧
    ((fresh.addDiagram 1).takeDiagram 1).connections = [connBoundariesChanged 1] := by
  obtain ⟨hpl, -, -, -, -, hconn, -⟩ := addDiagram_fields s d
  have hmem : d ∈ (s.addDiagram d).plane.diagrams := by
    rw [hpl]
    simp
  obtain ⟨-, -, -, -, -, hconn2, -⟩ := takeDiagram_fields (s.addDiagram d) d hmem
  rw [hconn2, hconn]
  refine ⟨?_, ?_, ?_, ?_, ?_⟩
  · simp [List.mem_filter, connBoundariesChanged, connModelsChanged, connDataChangedUpdate,
      connDataChangedRelayout]
  · simp [List.mem_filter]
  · simp [List.mem_filter]
  · simp [List.mem_filter]
  · decide

/-- Claim C16: `takeDiagram(d)` for a diagram `d` that is not in the diagram list of
the plane changes nothing: the diagram list, the parent and coordinate-plane
back-reference of `d`, all connections and the record of emitted signals and
layout calls (so no `needUpdate` and no layout notification) stay as they are. -/
theorem takeDiagram_absent_noop (s : Scene) (d : DiagramId) (habsent : d ∉ s.diagrams) :
    s.takeDiagram d = s ∧
    (s.takeDiagram d).diagrams = s.diagrams ∧
    (s.takeDiagram d).diagramState d = s.diagramState d ∧
    (s.takeDiagram d).connections = s.connections ∧
    (s.takeDiagram d).effects = s.effects := by
  have h : s.takeDiagram d = s := takeDiagram_of_not_mem s d habsent
  rw [h]
  exact ⟨rfl, rfl, rfl, rfl, rfl⟩

/-- Witness for claim C16: diagram 2 taken from a plane that holds diagram 1 only. -/
theorem takeDiagram_absent_noop_witness :
    (2 : DiagramId) ∉ (fresh.addDiagram 1).diagrams ∧
    (fresh.addDiagram 1).takeDiagram 2 = fresh.addDiagram 1 :=
  ⟨by decide, (takeDiagram_absent_noop (fresh.addDiagram 1) 2 (by decide)).1⟩

namespace Scene

/-- The second half of `replaceDiagram`, from `delete oldDiagram` on: its effect
on the diagram list, the destroyed diagrams and the diagram attributes. -/
theorem replaceDiagram_tail (s1 : Scene) (oldDiagram : Option DiagramId) (dg : DiagramId) :
    (((((s1.deleteDiagram oldDiagram).addDiagram dg).layoutDiagrams).layoutPlanes).update).plane
      = { s1.plane with diagrams := s1.plane.diagrams ++ [dg] } ∧
    (((((s1.deleteDiagram oldDiagram).addDiagram
        dg).layoutDiagrams).layoutPlanes).update).destroyed
      = s1.destroyed ++ oldDiagram.toList ∧
    (((((s1.deleteDiagram oldDiagram).addDiagram
        dg).layoutDiagrams).layoutPlanes).update).diagramState dg
      = ⟨s1.parent, some s1.self, true⟩ ∧
    (∀ k, k ≠ dg →
      (((((s1.deleteDiagram oldDiagram).addDiagram
          dg).layoutDiagrams).layoutPlanes).update).diagramState k
        = s1.diagramState k) := by
  have hdel : (s1.deleteDiagram oldDiagram).plane = s1.plane ∧
      (s1.deleteDiagram oldDiagram).destroyed = s1.destroyed ++ oldDiagram.toList ∧
      (s1.deleteDiagram oldDiagram).diagramState = s1.diagramState ∧
      (s1.deleteDiagram oldDiagram).parent = s1.parent ∧
      (s1.deleteDiagram oldDiagram).self = s1.self := by
    cases oldDiagram <;> simp [deleteDiagram]
  obtain ⟨hpl, hself, hpar, hd, hother, -, -, -, hdes⟩ :=
    addDiagram_fields (s1.deleteDiagram oldDiagram) dg
  refine ⟨?_, ?_, ?_, ?_⟩
  · show ((s1.deleteDiagram oldDiagram).addDiagram dg).plane = _
    rw [hpl, hdel.1]
  · show ((s1.deleteDiagram oldDiagram).addDiagram dg).destroyed = _
    rw [hdes, hdel.2.1]
  · show ((s1.deleteDiagram oldDiagram).addDiagram dg).diagramState dg = _
    rw [hd, hdel.2.2.2.1, hdel.2.2.2.2]
  · intro k hk
    show ((s1.deleteDiagram oldDiagram).addDiagram dg).diagramState k = _
    rw [hother k hk, hdel.2.2.1]

/-- With a given old diagram different from the new one, `replaceDiagram` takes
the old diagram when the list is not empty and then runs its second half. -/
theorem replaceDiagram_of_old (s : Scene) (dg old : DiagramId) (hne : dg ≠ old) :
    s.replaceDiagram (some dg) (some old) =
      (((((if s.plane.diagrams = [] then s else s.takeDiagram old).deleteDiagram
        (some old)).addDiagram dg).layoutDiagrams).layoutPlanes).update := by
  unfold replaceDiagram
  have h : ¬ (some old = some dg) := by
    intro hc
    exact hne (Option.some.inj hc).symm
  simp only [h, if_false]
  cases hl : s.plane.diagrams with
  | nil => simp
  | cons a t => simp

/-- Without a given old diagram, on a list that starts with a diagram other than
the new one, `replaceDiagram` takes and deletes the first diagram and then adds
the new one. -/
theorem replaceDiagram_of_first (s : Scene) (dg first : DiagramId) (rest : List DiagramId)
    (hlist : s.plane.diagrams = first :: rest) (hne : dg ≠ first) :
    s.replaceDiagram (some dg) none =
      (((((s.takeDiagram first).deleteDiagram (some first)).addDiagram
        dg).layoutDiagrams).layoutPlanes).update := by
  unfold replaceDiagram
  have h : ¬ (first = dg) := fun hc => hne hc.symm
  simp [hlist, h]

end Scene

/-- Claim C17 as stated fails: on a plane that holds diagram 1 only,
`replaceDiagram(2, 3)` with the unattached old diagram 3 changes the diagram list
to `[1, 2]`, destroys diagram 3 and attaches diagram 2. -/
theorem replaceDiagram_absent_old_not_noop :
    (3 : DiagramId) ∉ (fresh.addDiagram 1).diagrams ∧
    ((fresh.addDiagram 1).replaceDiagram (some 2) (some 3)).diagrams = [1, 2] ∧
    ((fresh.addDiagram 1).replaceDiagram (some 2) (some 3)).diagrams
      ≠ (fresh.addDiagram 1).diagrams ∧
    (3 : DiagramId) ∈ ((fresh.addDiagram 1).replaceDiagram (some 2) (some 3)).destroyed ∧
    (((fresh.addDiagram 1).replaceDiagram (some 2) (some 3)).diagramState 2).coordinatePlane
      = some fresh.self := by
  refine ⟨by decide, by decide, by decide, by decide, rfl⟩

/-- Claim C17, amended: `replaceDiagram(new, old)` with a non-null old diagram that
is not in the diagram list of the plane keeps every entry of the list in place.
It changes nothing when `new` is null or equal to `old`; for every other `new`
it still destroys `old` and attaches `new`, so that the list afterwards is the
previous list followed by `new`. -/
theorem replaceDiagram_absent_old (s : Scene) (old : DiagramId) (habsent : old ∉ s.diagrams) :
    s.replaceDiagram none (some old) = s ∧
    s.replaceDiagram (some old) (some old) = s ∧
    (∀ dg : DiagramId, dg ≠ old →
      (s.replaceDiagram (some dg) (some old)).diagrams = s.diagrams ++ [dg] ∧
      (s.replaceDiagram (some dg) (some old)).destroyed = s.destroyed ++ [old] ∧
      ((s.replaceDiagram (some dg) (some old)).diagramState dg).coordinatePlane
        = some s.self) := by
  refine ⟨rfl, ?_, ?_⟩
  · simp [replaceDiagram]
  · intro dg hne
    have htake : (if s.plane.diagrams = [] then s else s.takeDiagram old) = s := by
      split
      · rfl
      · exact takeDiagram_of_not_mem s old habsent
    rw [replaceDiagram_of_old s dg old hne, htake]
    obtain ⟨hpl, hdes, hd, -⟩ := replaceDiagram_tail s (some old) dg
    refine ⟨?_, ?_, ?_⟩
    · show (_ : Scene).plane.diagrams = _
      rw [hpl]
      rfl
    · rw [hdes]
      rfl
    · rw [hd]

/-- Witness for claim C17 (amended): diagram 3 is not attached to the plane that
holds diagram 1; replacing it by diagram 2 appends diagram 2. -/
theorem replaceDiagram_absent_old_witness :
    (3 : DiagramId) ∉ (fresh.addDiagram 1).diagrams ∧
    ((fresh.addDiagram 1).replaceDiagram (some 2) (some 3)).diagrams
      = (fresh.addDiagram 1).diagrams ++ [2] :=
  ⟨by decide,
    ((replaceDiagram_absent_old (fresh.addDiagram 1) 3 (by decide)).2.2 2 (by decide)).1⟩

/-- Claim C18: `replaceDiagram(new)` without an old diagram, on a plane whose
diagram list is `first :: rest`, resolves the old diagram to `first`. If `new`
is `first` the state is unchanged. Otherwise `first` is detached (its
back-reference and parent are cleared) and destroyed and `new` is attached: the
list afterwards is `rest` followed by `new`, of the same length as before, and
the back-reference of `new` is this plane. -/
theorem replaceDiagram_default_first (s : Scene) (dg first : DiagramId)
    (rest : List DiagramId) (hlist : s.diagrams = first :: rest) :
    (dg = first → s.replaceDiagram (some dg) none = s) ∧
    (dg ≠ first →
      (s.replaceDiagram (some dg) none).diagrams = rest ++ [dg] ∧
      (s.replaceDiagram (some dg) none).diagrams.length = s.diagrams.length ∧
      (s.replaceDiagram (some dg) none).destroyed = s.destroyed ++ [first] ∧
      ((s.replaceDiagram (some dg) none).diagramState first).coordinatePlane = none ∧
      ((s.replaceDiagram (some dg) none).diagramState first).parent = none ∧
      ((s.replaceDiagram (some dg) none).diagramState dg).coordinatePlane = some s.self) := by
  have hlist2 : s.plane.diagrams = first :: rest := hlist
  constructor
  · intro heq
    subst heq
    simp [replaceDiagram, hlist2]
  · intro hne
    have hmem : first ∈ s.plane.diagrams := by
      rw [hlist2]
      simp
    obtain ⟨hpl, hself, hpar, hd, -, -, -, -, hdes⟩ := takeDiagram_fields s first hmem
    obtain ⟨hpl2, hdes2, hd2, hother2⟩ :=
      replaceDiagram_tail (s.takeDiagram first) (some first) dg
    rw [replaceDiagram_of_first s dg first rest hlist2 hne]
    have hdiag : (((((s.takeDiagram first).deleteDiagram (some first)).addDiagram
        dg).layoutDiagrams).layoutPlanes).update.diagrams = rest ++ [dg] := by
      show (_ : Scene).plane.diagrams = _
      rw [hpl2, hpl]
      simp [hlist2]
    refine ⟨hdiag, ?_, ?_, ?_, ?_, ?_⟩
    · rw [hdiag, hlist]
      simp
    · rw [hdes2, hdes]
      rfl
    · rw [hother2 first (fun hc => hne hc.symm), hd]
    · rw [hother2 first (fun hc => hne hc.symm), hd]
    · rw [hd2, hself]

/-- Witness for claim C18: on the plane that holds diagrams 1 and 2,
`replaceDiagram(3)` gives the list `[2, 3]`. -/
theorem replaceDiagram_default_first_witness :
    ((fresh.addDiagram 1).addDiagram 2).diagrams = 1 :: [2] ∧
    (((fresh.addDiagram 1).addDiagram 2).replaceDiagram (some 3) none).diagrams
      = [2] ++ [3] :=
  ⟨rfl,
    ((replaceDiagram_default_first ((fresh.addDiagram 1).addDiagram 2) 3 1 [2] rfl).2
      (by decide)).1⟩

/-- Claim C19: `addDiagram(d)` appends `d` at the end of the diagram list and keeps
every existing entry in place: `diagrams()` afterwards is the previous list
followed by `d`, the coordinate-plane back-reference of `d` is this plane, and
`diagram()` still returns the previous first diagram when the list was not empty
and returns `d` when it was empty. -/
theorem addDiagram_appends (s : Scene) (d : DiagramId) :
    (s.addDiagram d).diagrams = s.diagrams ++ [d] ∧
    ((s.addDiagram d).diagramState d).coordinatePlane = some s.self ∧
    (∀ first rest, s.diagrams = first :: rest →
      s.diagram = some first ∧ (s.addDiagram d).diagram = some first) ∧
    (s.diagrams = [] → (s.addDiagram d).diagram = some d) := by
  obtain ⟨hpl, -, -, hd, -⟩ := addDiagram_fields s d
  have hdiag : (s.addDiagram d).plane.diagrams = s.plane.diagrams ++ [d] := by
    rw [hpl]
  refine ⟨hdiag, by rw [hd], ?_, ?_⟩
  · intro first rest hlist
    have hlist2 : s.plane.diagrams = first :: rest := hlist
    constructor
    · simp [Scene.diagram, hlist2]
    · simp [Scene.diagram, hdiag, hlist2]
  · intro hlist
    have hlist2 : s.plane.diagrams = [] := hlist
    simp [Scene.diagram, hdiag, hlist2]

/-- Claim C20: `setGeometry(r)` with `r` different from the current geometry queues
exactly one geometry-changed notification carrying the previous geometry and
`r`, and `geometry()` afterwards returns `r`; with `r` equal to the current
geometry the state is unchanged and nothing is queued. In both cases nothing is
emitted (no `needUpdate`, `needRelayout`, `needLayoutPlanes`) and no field other
than the geometry, and the queue in the first case, changes. -/
theorem setGeometry_effects (s : Scene) (r : QRect) :
    (s.geometry ≠ r →
      s.setGeometry r =
        { s with
          geometryChangedQueue := s.geometryChangedQueue ++ [(s.geometry, r)]
          plane := { s.plane with geometry := r } } ∧
      (s.setGeometry r).geometryChangedQueue.length = s.geometryChangedQueue.length + 1) ∧
    (s.geometry = r → s.setGeometry r = s) ∧
    (s.setGeometry r).geometry = r ∧
    (s.setGeometry r).effects = s.effects ∧
    (s.setGeometry r).plane = { s.plane with geometry := r } ∧
    (s.setGeometry r).diagramState = s.diagramState ∧
    (s.setGeometry r).connections = s.connections ∧
    (s.setGeometry r).destroyed = s.destroyed ∧
    (s.setGeometry r).parent = s.parent := by
  by_cases h : s.plane.geometry = r
  · have hs : s.setGeometry r = s := by
      unfold setGeometry
      simp [h]
    rw [hs]
    refine ⟨fun hne => absurd h hne, fun _ => rfl, h, rfl, ?_, rfl, rfl, rfl, rfl⟩
    rw [← h]
  · have hs : s.setGeometry r =
        { s with
          geometryChangedQueue := s.geometryChangedQueue ++ [(s.geometry, r)]
          plane := { s.plane with geometry := r } } := by
      unfold setGeometry
      simp [h, Scene.geometry]
    rw [hs]
    refine ⟨fun _ => ⟨rfl, by simp⟩, fun heq => absurd heq h, rfl, rfl, rfl, rfl, rfl, rfl, rfl⟩

end KDChart

/-! ## Theorems: the interaction state machine -/

namespace KDChart

open Plane

/-- A left-button press with zooming enabled or a rubber band present begins a
selection at the press position and is accepted. -/
theorem mousePressEvent_left_begin (p : Plane) (pos : QPoint)
    (h : p.enableRubberBandZooming = true ∨ p.rubberBand.isSome = true) :
    p.mousePressEvent ⟨MouseButton.LeftButton, pos⟩ =
      { plane := { p with
                   rubberBandOrigin := pos
                   rubberBand := some (QRect.ofPointSize pos QSize.default) }
        accepted := true
        parentUpdate := false
        forwarded := p.forwardTo PointerHandler.press } := by
  unfold mousePressEvent
  cases hen : p.enableRubberBandZooming <;> cases hb : p.rubberBand <;>
    simp_all

/-- A left-button press with zooming disabled and no rubber band does nothing and
is not accepted. -/
theorem mousePressEvent_left_idle (p : Plane) (pos : QPoint)
    (hen : p.enableRubberBandZooming = false) (hband : p.rubberBand = none) :
    p.mousePressEvent ⟨MouseButton.LeftButton, pos⟩ =
      { plane := p
        accepted := false
        parentUpdate := false
        forwarded := p.forwardTo PointerHandler.press } := by
  unfold mousePressEvent
  simp [hen, hband]

/-- A press with a button other than the left and the right one does nothing and
is not accepted. -/
theorem mousePressEvent_other (p : Plane) (event : QMouseEvent)
    (hl : event.button ≠ MouseButton.LeftButton)
    (hr : event.button ≠ MouseButton.RightButton) :
    p.mousePressEvent event =
      { plane := p
        accepted := false
        parentUpdate := false
        forwarded := p.forwardTo PointerHandler.press } := by
  unfold mousePressEvent
  rw [if_neg hl, if_neg hr]

/-- What `mousePressEvent` forwards and that it keeps the diagram list. -/
theorem mousePressEvent_forwarded (p : Plane) (event : QMouseEvent) :
    (p.mousePressEvent event).forwarded = p.forwardTo PointerHandler.press ∧
    (p.mousePressEvent event).plane.diagrams = p.diagrams := by
  obtain ⟨button, pos⟩ := event
  cases button with
  | NoButton =>
    rw [mousePressEvent_other p _ (fun hc => MouseButton.noConfusion hc)
      (fun hc => MouseButton.noConfusion hc)]
    exact ⟨rfl, rfl⟩
  | MiddleButton =>
    rw [mousePressEvent_other p _ (fun hc => MouseButton.noConfusion hc)
      (fun hc => MouseButton.noConfusion hc)]
    exact ⟨rfl, rfl⟩
  | LeftButton =>
    by_cases h : p.enableRubberBandZooming = true ∨ p.rubberBand.isSome = true
    · rw [mousePressEvent_left_begin p pos h]
      exact ⟨rfl, rfl⟩
    · have hen : p.enableRubberBandZooming = false := by
        cases hv : p.enableRubberBandZooming
        · rfl
        · exact absurd (Or.inl hv) h
      have hband : p.rubberBand = none := by
        cases hv : p.rubberBand
        · rfl
        · exact absurd (Or.inr (by rw [hv]; rfl)) h
      rw [mousePressEvent_left_idle p pos hen hband]
      exact ⟨rfl, rfl⟩
  | RightButton =>
    cases hhist : p.rubberBandZoomConfigHistory with
    | nil =>
      rw [mousePressEvent_right_idle p pos (Or.inr hhist)]
      exact ⟨rfl, rfl⟩
    | cons config rest =>
      cases hen : p.enableRubberBandZooming
      · rw [mousePressEvent_right_idle p pos (Or.inl hen)]
        exact ⟨rfl, rfl⟩
      · rw [mousePressEvent_right_pop p config rest pos hen hhist]
        exact ⟨rfl, rfl⟩

/-- What `mouseReleaseEvent` forwards and that it keeps the diagram list. -/
theorem mouseReleaseEvent_forwarded (p : Plane) (event : QMouseEvent) :
    (p.mouseReleaseEvent event).forwarded = p.forwardTo PointerHandler.release ∧
    (p.mouseReleaseEvent event).plane.diagrams = p.diagrams := by
  cases hband : p.rubberBand with
  | none =>
    unfold mouseReleaseEvent
    rw [hband]
    exact ⟨rfl, rfl⟩
  | some band =>
    by_cases hguard : 0 < band.width ∧ 0 < band.height
    · rw [mouseReleaseEvent_of_extent p band event hband hguard.1 hguard.2]
      exact ⟨rfl, rfl⟩
    · rw [mouseReleaseEvent_of_no_extent p band event hband hguard]
      exact ⟨rfl, rfl⟩

/-- What `mouseMoveEvent` forwards and that it keeps the diagram list. -/
theorem mouseMoveEvent_forwarded (p : Plane) (event : QMouseEvent) :
    (p.mouseMoveEvent event).forwarded = p.forwardTo PointerHandler.move ∧
    (p.mouseMoveEvent event).plane.diagrams = p.diagrams := by
  unfold mouseMoveEvent
  cases p.rubberBand <;> exact ⟨rfl, rfl⟩

/-- The number of calls that `forwardTo` makes to one diagram is the number of
its entries in the diagram list. -/
theorem forwardTo_count (p : Plane) (handler : PointerHandler) (d : DiagramId) :
    (p.forwardTo handler).count (handler, d) = p.diagrams.count d := by
  unfold forwardTo
  induction p.diagrams with
  | nil => rfl
  | cons a t ih =>
    rw [List.map_cons, List.count_cons, List.count_cons, ih]
    by_cases h : a = d
    · subst h
      simp
    · have h2 : ¬ ((handler, a) = (handler, d)) := by
        intro hc
        exact h (Prod.mk.inj hc).2
      simp [h, h2]

/-- Claim C21 as stated fails: after `addDiagram(1)` twice the diagram list is
`[1, 1]`, and a press, a move and a release are each forwarded to diagram 1
twice, not exactly once. -/
theorem duplicate_diagram_called_twice :
    ((Scene.fresh.addDiagram 1).addDiagram 1).plane.diagrams = [1, 1] ∧
    (((Scene.fresh.addDiagram 1).addDiagram 1).plane.mousePressEvent
        ⟨MouseButton.LeftButton, ⟨5, 5⟩⟩).forwarded.count (PointerHandler.press, 1) = 2 ∧
    (((Scene.fresh.addDiagram 1).addDiagram 1).plane.mouseMoveEvent
        ⟨MouseButton.NoButton, ⟨5, 5⟩⟩).forwarded.count (PointerHandler.move, 1) = 2 ∧
    (((Scene.fresh.addDiagram 1).addDiagram 1).plane.mouseReleaseEvent
        ⟨MouseButton.LeftButton, ⟨5, 5⟩⟩).forwarded.count (PointerHandler.release, 1)
      = 2 := by
  refine ⟨rfl, ?_, ?_, ?_⟩
  · rw [(mousePressEvent_forwarded _ _).1]
    decide
  · rw [(mouseMoveEvent_forwarded _ _).1]
    decide
  · rw [(mouseReleaseEvent_forwarded _ _).1]
    decide

/-- Claim C21, amended: for every plane state and every press, move or release
event the calls made to the diagram handlers are one call per entry of the
diagram list, in list order, to the handler of the same kind, whether or not the
plane accepted the event and whether or not rubber-band zooming is enabled. A
diagram is therefore called as often as it is listed; when no diagram is listed
twice, every attached diagram is called exactly once. -/
theorem pointer_events_forwarded (p : Plane) (event : QMouseEvent) :
    (p.mousePressEvent event).forwarded
      = p.diagrams.map (fun a => (PointerHandler.press, a)) ∧
    (p.mouseMoveEvent event).forwarded
      = p.diagrams.map (fun a => (PointerHandler.move, a)) ∧
    (p.mouseReleaseEvent event).forwarded
      = p.diagrams.map (fun a => (PointerHandler.release, a)) ∧
    (∀ d : DiagramId,
      (p.mousePressEvent event).forwarded.count (PointerHandler.press, d)
        = p.diagrams.count d ∧
      (p.mouseMoveEvent event).forwarded.count (PointerHandler.move, d)
        = p.diagrams.count d ∧
      (p.mouseReleaseEvent event).forwarded.count (PointerHandler.release, d)
        = p.diagrams.count d) ∧
    (p.diagrams.Nodup → ∀ d : DiagramId, d ∈ p.diagrams →
      (p.mousePressEvent event).forwarded.count (PointerHandler.press, d) = 1 ∧
      (p.mouseMoveEvent event).forwarded.count (PointerHandler.move, d) = 1 ∧
      (p.mouseReleaseEvent event).forwarded.count (PointerHandler.release, d) = 1) := by
  have h1 := (mousePressEvent_forwarded p event).1
  have h2 := (mouseMoveEvent_forwarded p event).1
  have h3 := (mouseReleaseEvent_forwarded p event).1
  refine ⟨h1, h2, h3, ?_, ?_⟩
  · intro d
    rw [h1, h2, h3]
    exact ⟨forwardTo_count p _ d, forwardTo_count p _ d, forwardTo_count p _ d⟩
  · intro hnd d hd
    have hone : p.diagrams.count d = 1 := List.count_eq_one_of_mem hnd hd
    rw [h1, h2, h3, forwardTo_count, forwardTo_count, forwardTo_count, hone]
    exact ⟨rfl, rfl, rfl⟩

/-- Release and move without an active selection: nothing happens to the plane
and the event is not accepted. -/
theorem mouseReleaseEvent_of_idle (p : Plane) (event : QMouseEvent)
    (hband : p.rubberBand = none) :
    (p.mouseReleaseEvent event).plane = p ∧ (p.mouseReleaseEvent event).accepted = false ∧
    (p.mouseMoveEvent event).plane = p ∧ (p.mouseMoveEvent event).accepted = false := by
  unfold mouseReleaseEvent mouseMoveEvent
  rw [hband]
  exact ⟨rfl, rfl, rfl, rfl⟩

/-- Claim C24: `mouseDoubleClickEvent` with the right button leaves the plane
exactly as a right-button press does, and accepts the event when the press does:
with zooming enabled and a non-empty history it pops one history entry and
applies it. A double-click with any other button leaves the whole state of the
plane (zoom factors, center, history, selection state) unchanged. -/
theorem double_click_as_right_press (p : Plane) (event : QMouseEvent) :
    (event.button = MouseButton.RightButton →
      (p.mouseDoubleClickEvent event).plane = (p.mousePressEvent event).plane ∧
      (p.mouseDoubleClickEvent event).accepted = (p.mousePressEvent event).accepted ∧
      (∀ config rest, p.enableRubberBandZooming = true →
        p.rubberBandZoomConfigHistory = config :: rest →
        (p.mouseDoubleClickEvent event).plane.rubberBandZoomConfigHistory = rest ∧
        (p.mouseDoubleClickEvent event).plane.zoomParameters = config)) ∧
    (event.button ≠ MouseButton.RightButton →
      (p.mouseDoubleClickEvent event).plane = p ∧
      (p.mouseDoubleClickEvent event).accepted = false) := by
  constructor
  · intro hb
    have h1 : (p.mouseDoubleClickEvent event).plane = (p.mousePressEvent event).plane := by
      unfold mouseDoubleClickEvent
      rw [if_pos hb]
    have h2 : (p.mouseDoubleClickEvent event).accepted = (p.mousePressEvent event).accepted := by
      unfold mouseDoubleClickEvent
      rw [if_pos hb]
    refine ⟨h1, h2, ?_⟩
    intro config rest hen hhist
    rw [h1]
    obtain ⟨b, pos⟩ := event
    simp only at hb
    subst hb
    rw [mousePressEvent_right_pop p config rest pos hen hhist]
    exact ⟨rfl, rfl⟩
  · intro hb
    unfold mouseDoubleClickEvent
    rw [if_neg hb]
    exact ⟨rfl, rfl⟩

/-- Claim C29: when no rubber-band selection is active, a pointer release with any
button leaves the whole state of the plane (zoom factors, zoom center, zoom
history, geometry, diagram list) unchanged and the plane does not accept the
event; a pointer move without an active selection leaves the state unchanged as
well. -/
theorem release_and_move_idle (p : Plane) (event : QMouseEvent)
    (hidle : p.rubberBand = none) :
    (p.mouseReleaseEvent event).plane = p ∧
    (p.mouseReleaseEvent event).accepted = false ∧
    (p.mouseMoveEvent event).plane = p := by
  obtain ⟨h1, h2, h3, -⟩ := mouseReleaseEvent_of_idle p event hidle
  exact ⟨h1, h2, h3⟩

/-- Witness for claim C29: a right-button release on the sample plane, on which no
selection is active. -/
theorem release_and_move_idle_witness :
    samplePlane.rubberBand = none ∧
    (samplePlane.mouseReleaseEvent ⟨MouseButton.RightButton, ⟨3, 4⟩⟩).plane = samplePlane ∧
    (samplePlane.mouseReleaseEvent ⟨MouseButton.RightButton, ⟨3, 4⟩⟩).accepted = false ∧
    (samplePlane.mouseMoveEvent ⟨MouseButton.RightButton, ⟨3, 4⟩⟩).plane = samplePlane :=
  ⟨rfl, release_and_move_idle samplePlane ⟨MouseButton.RightButton, ⟨3, 4⟩⟩ rfl⟩

/-- After a release no selection is active and the zooming switch is as before. -/
theorem mouseReleaseEvent_ends_selection (p : Plane) (event : QMouseEvent) :
    (p.mouseReleaseEvent event).plane.rubberBand = none ∧
    (p.mouseReleaseEvent event).plane.enableRubberBandZooming
      = p.enableRubberBandZooming := by
  cases hband : p.rubberBand with
  | none =>
    rw [(mouseReleaseEvent_of_idle p event hband).1]
    exact ⟨hband, rfl⟩
  | some band =>
    by_cases hguard : 0 < band.width ∧ 0 < band.height
    · rw [mouseReleaseEvent_of_extent p band event hband hguard.1 hguard.2]
      exact ⟨rfl, rfl⟩
    · rw [mouseReleaseEvent_of_no_extent p band event hband hguard]
      exact ⟨rfl, rfl⟩

/-- One interaction call keeps: an active selection implies that rubber-band
zooming is enabled. -/
theorem Plane.step_selection_enabled (p : Plane) (c : Plane.Call)
    (h : p.rubberBand.isSome = true → p.enableRubberBandZooming = true) :
    (p.step c).rubberBand.isSome = true → (p.step c).enableRubberBandZooming = true := by
  have hpress : ∀ event : QMouseEvent,
      (p.mousePressEvent event).plane.rubberBand.isSome = true
        → (p.mousePressEvent event).plane.enableRubberBandZooming = true := by
    intro event
    obtain ⟨button, pos⟩ := event
    cases button with
    | NoButton =>
      rw [mousePressEvent_other p _ (fun hc => MouseButton.noConfusion hc)
        (fun hc => MouseButton.noConfusion hc)]
      exact h
    | MiddleButton =>
      rw [mousePressEvent_other p _ (fun hc => MouseButton.noConfusion hc)
        (fun hc => MouseButton.noConfusion hc)]
      exact h
    | LeftButton =>
      by_cases hc : p.enableRubberBandZooming = true ∨ p.rubberBand.isSome = true
      · rw [mousePressEvent_left_begin p pos hc]
        intro _
        rcases hc with hc | hc
        · exact hc
        · exact h hc
      · have hen : p.enableRubberBandZooming = false := by
          cases hv : p.enableRubberBandZooming
          · rfl
          · exact absurd (Or.inl hv) hc
        have hband : p.rubberBand = none := by
          cases hv : p.rubberBand
          · rfl
          · exact absurd (Or.inr (by rw [hv]; rfl)) hc
        rw [mousePressEvent_left_idle p pos hen hband]
        exact h
    | RightButton =>
      cases hhist : p.rubberBandZoomConfigHistory with
      | nil =>
        rw [mousePressEvent_right_idle p pos (Or.inr hhist)]
        exact h
      | cons config rest =>
        cases hen : p.enableRubberBandZooming
        · rw [mousePressEvent_right_idle p pos (Or.inl hen)]
          exact h
        · rw [mousePressEvent_right_pop p config rest pos hen hhist]
          intro _
          exact hen
  cases c with
  | setRubberBandZoomingEnabled enable =>
    show (p.setRubberBandZoomingEnabled enable).rubberBand.isSome = true
      → (p.setRubberBandZoomingEnabled enable).enableRubberBandZooming = true
    unfold setRubberBandZoomingEnabled
    cases enable <;> cases hb : p.rubberBand <;> simp [hb]
  | mousePressEvent event => exact hpress event
  | mouseDoubleClickEvent event =>
    show (p.mouseDoubleClickEvent event).plane.rubberBand.isSome = true
      → (p.mouseDoubleClickEvent event).plane.enableRubberBandZooming = true
    unfold mouseDoubleClickEvent
    split_ifs
    · exact hpress event
    · exact h
  | mouseReleaseEvent event =>
    show (p.mouseReleaseEvent event).plane.rubberBand.isSome = true → _
    rw [(mouseReleaseEvent_ends_selection p event).1]
    intro hc
    exact absurd hc (by simp)
  | mouseMoveEvent event =>
    show (p.mouseMoveEvent event).plane.rubberBand.isSome = true
      → (p.mouseMoveEvent event).plane.enableRubberBandZooming = true
    cases hband : p.rubberBand with
    | none =>
      rw [(mouseReleaseEvent_of_idle p event hband).2.2.1]
      exact h
    | some band =>
      rw [mouseMoveEvent_of_selecting p band event hband]
      intro _
      exact h (by rw [hband]; rfl)

/-- A run of interaction calls keeps: an active selection implies that
rubber-band zooming is enabled. -/
theorem Plane.run_selection_enabled (calls : List Plane.Call) (p : Plane)
    (h : p.rubberBand.isSome = true → p.enableRubberBandZooming = true) :
    (p.run calls).rubberBand.isSome = true → (p.run calls).enableRubberBandZooming = true := by
  induction calls generalizing p with
  | nil => exact h
  | cons c cs ih => exact ih (p.step c) (Plane.step_selection_enabled p c h)

/-- Claim C25: starting from a plane with no active rubber band, after every
sequence of `setRubberBandZoomingEnabled`, press, double-click, move and release
calls an active rubber-band selection exists only if rubber-band zooming is
enabled: with zooming disabled there is no active selection. -/
theorem selection_only_when_enabled (p0 : Plane) (calls : List Plane.Call)
    (hstart : p0.rubberBand = none) :
    ((p0.run calls).rubberBand.isSome = true
      → (p0.run calls).enableRubberBandZooming = true) ∧
    ((p0.run calls).enableRubberBandZooming = false → (p0.run calls).rubberBand = none) := by
  have h := Plane.run_selection_enabled calls p0 (by rw [hstart]; intro hc; exact absurd hc (by simp))
  refine ⟨h, ?_⟩
  intro hdis
  cases hb : (p0.run calls).rubberBand with
  | none => rfl
  | some band =>
    have := h (by rw [hb]; rfl)
    rw [hdis] at this
    exact absurd this (by simp)

/-- Witness for claim C25: on the sample plane a press begins a selection, and
switching rubber-band zooming off ends it. -/
theorem selection_only_when_enabled_witness :
    samplePlane.rubberBand = none ∧
    (samplePlane.run [Plane.Call.mousePressEvent ⟨MouseButton.LeftButton, ⟨1, 1⟩⟩,
        Plane.Call.setRubberBandZoomingEnabled false]).enableRubberBandZooming = false ∧
    (samplePlane.run [Plane.Call.mousePressEvent ⟨MouseButton.LeftButton, ⟨1, 1⟩⟩,
        Plane.Call.setRubberBandZoomingEnabled false]).rubberBand = none :=
  ⟨rfl, rfl,
    (selection_only_when_enabled samplePlane
      [Plane.Call.mousePressEvent ⟨MouseButton.LeftButton, ⟨1, 1⟩⟩,
        Plane.Call.setRubberBandZoomingEnabled false] rfl).2 rfl⟩

/-- Claim C22: in every state reached from a plane with no active rubber band by
interaction calls, a left-button press begins a selection and is accepted by
the plane if and only if rubber-band zooming is enabled. When it begins one, the
anchor is the press position and the selection rectangle is
`QRect(pos, QSize())`: its top-left corner is the press point and it has no
positive width or height. With zooming disabled the plane is left as it is. In
both cases zoom factors, zoom center and zoom history are unchanged. -/
theorem left_press_begins_selection (p0 : Plane) (calls : List Plane.Call) (pos : QPoint)
    (hstart : p0.rubberBand = none) :
    (((p0.run calls).mousePressEvent ⟨MouseButton.LeftButton, pos⟩).accepted = true
      ↔ (p0.run calls).enableRubberBandZooming = true) ∧
    ((p0.run calls).enableRubberBandZooming = true →
      ((p0.run calls).mousePressEvent ⟨MouseButton.LeftButton, pos⟩).plane.rubberBandOrigin
        = pos ∧
      ((p0.run calls).mousePressEvent ⟨MouseButton.LeftButton, pos⟩).plane.rubberBand
        = some (QRect.ofPointSize pos QSize.default) ∧
      (QRect.ofPointSize pos QSize.default).x = pos.x ∧
      (QRect.ofPointSize pos QSize.default).y = pos.y ∧
      (QRect.ofPointSize pos QSize.default).width ≤ 0 ∧
      (QRect.ofPointSize pos QSize.default).height ≤ 0) ∧
    ((p0.run calls).enableRubberBandZooming = false →
      ((p0.run calls).mousePressEvent ⟨MouseButton.LeftButton, pos⟩).plane = p0.run calls ∧
      ((p0.run calls).mousePressEvent ⟨MouseButton.LeftButton, pos⟩).plane.rubberBand
        = none) ∧
    ((p0.run calls).mousePressEvent ⟨MouseButton.LeftButton, pos⟩).plane.zoomParameters
      = (p0.run calls).zoomParameters ∧
    ((p0.run calls).mousePressEvent
        ⟨MouseButton.LeftButton, pos⟩).plane.rubberBandZoomConfigHistory
      = (p0.run calls).rubberBandZoomConfigHistory := by
  have hinv := Plane.run_selection_enabled calls p0
    (by rw [hstart]; intro hc; exact absurd hc (by simp))
  generalize p0.run calls = p at hinv ⊢
  have hgeom : (QRect.ofPointSize pos QSize.default).x = pos.x ∧
      (QRect.ofPointSize pos QSize.default).y = pos.y ∧
      (QRect.ofPointSize pos QSize.default).width ≤ 0 ∧
      (QRect.ofPointSize pos QSize.default).height ≤ 0 := by
    refine ⟨rfl, rfl, ?_, ?_⟩ <;>
      simp only [QRect.ofPointSize, QSize.default, QRect.width, QRect.height] <;> omega
  cases hen : p.enableRubberBandZooming with
  | true =>
    rw [mousePressEvent_left_begin p pos (Or.inl hen)]
    refine ⟨⟨fun _ => rfl, fun _ => rfl⟩, fun _ => ⟨rfl, rfl, hgeom⟩, ?_, rfl, rfl⟩
    intro hc
    exact absurd hc (by simp)
  | false =>
    have hband : p.rubberBand = none := by
      cases hb : p.rubberBand with
      | none => rfl
      | some band =>
        have := hinv (by rw [hb]; rfl)
        rw [hen] at this
        exact absurd this (by simp)
    rw [mousePressEvent_left_idle p pos hen hband]
    refine ⟨⟨fun hc => absurd hc (by simp), fun hc => absurd hc (by simp)⟩, ?_,
      fun _ => ⟨rfl, hband⟩, rfl, rfl⟩
    intro hc
    exact absurd hc (by simp)

/-- Witness for claim C22: a left-button press at `(100, 75)` on the sample plane,
reached by the empty sequence of calls. -/
theorem left_press_begins_selection_witness :
    samplePlane.rubberBand = none ∧
    ((samplePlane.run []).mousePressEvent ⟨MouseButton.LeftButton, ⟨100, 75⟩⟩).accepted
      = true ∧
    ((samplePlane.run []).mousePressEvent
        ⟨MouseButton.LeftButton, ⟨100, 75⟩⟩).plane.rubberBandOrigin = ⟨100, 75⟩ :=
  ⟨rfl,
    (left_press_begins_selection samplePlane [] ⟨100, 75⟩ rfl).1.mpr rfl,
    ((left_press_begins_selection samplePlane [] ⟨100, 75⟩ rfl).2.1 rfl).1⟩

/-- A normalized rectangle has no negative extent. -/
theorem QRect.normalized_extent (r : QRect) :
    r.normalized.x1 - 1 ≤ r.normalized.x2 ∧ r.normalized.y1 - 1 ≤ r.normalized.y2 := by
  unfold QRect.normalized
  constructor
  · by_cases h : r.x2 < r.x1 - 1
    · simp only [h, if_true]; omega
    · simp only [h, if_false]; omega
  · by_cases h : r.y2 < r.y1 - 1
    · simp only [h, if_true]; omega
    · simp only [h, if_false]; omega

/-- What `QRect::contains` says, as inequalities, for a rectangle without
negative extent. -/
theorem QRect.contains_iff (r : QRect) (pt : QPoint)
    (hx : r.x1 - 1 ≤ r.x2) (hy : r.y1 - 1 ≤ r.y2) :
    r.contains pt = true ↔ (r.x1 ≤ pt.x ∧ pt.x ≤ r.x2) ∧ (r.y1 ≤ pt.y ∧ pt.y ≤ r.y2) := by
  have h1 : ¬ (r.x2 < r.x1 - 1) := by omega
  have h2 : ¬ (r.y2 < r.y1 - 1) := by omega
  unfold QRect.contains
  simp only [h1, h2, if_false, Bool.and_eq_true, Bool.not_eq_true', Bool.or_eq_false_iff,
    decide_eq_false_iff_not, not_lt, gt_iff_lt]

/-- What `QRect::contains` says, as inequalities, for every rectangle: the
corners of an axis of negative extent are swapped. -/
theorem QRect.contains_iff_swapped (r : QRect) (pt : QPoint) :
    r.contains pt = true ↔
      ((if r.x2 < r.x1 - 1 then r.x2 else r.x1) ≤ pt.x ∧
        pt.x ≤ (if r.x2 < r.x1 - 1 then r.x1 else r.x2)) ∧
      ((if r.y2 < r.y1 - 1 then r.y2 else r.y1) ≤ pt.y ∧
        pt.y ≤ (if r.y2 < r.y1 - 1 then r.y1 else r.y2)) := by
  unfold QRect.contains
  simp only [Bool.and_eq_true, Bool.not_eq_true', Bool.or_eq_false_iff,
    decide_eq_false_iff_not, not_lt, gt_iff_lt]

/-- The intersection of a rectangle without negative extent with any rectangle
`g`: it has no negative extent; unless it is the null rectangle it lies between
the corners of `g`, taken in swapped order on an axis on which `g` has negative
extent; and it is no wider (no higher) than `g` when the width (height) of `g`
is not negative. -/
theorem QRect.intersected_within (a g : QRect)
    (hax : a.x1 - 1 ≤ a.x2) (hay : a.y1 - 1 ≤ a.y2) :
    ((a.intersected g).x1 - 1 ≤ (a.intersected g).x2 ∧
      (a.intersected g).y1 - 1 ≤ (a.intersected g).y2) ∧
    (a.intersected g = QRect.null ∨
      ((if g.x2 < g.x1 - 1 then g.x2 else g.x1) ≤ (a.intersected g).x1 ∧
        (a.intersected g).x2 ≤ (if g.x2 < g.x1 - 1 then g.x1 else g.x2) ∧
        (if g.y2 < g.y1 - 1 then g.y2 else g.y1) ≤ (a.intersected g).y1 ∧
        (a.intersected g).y2 ≤ (if g.y2 < g.y1 - 1 then g.y1 else g.y2))) ∧
    (0 ≤ g.width → (a.intersected g).width ≤ g.width) ∧
    (0 ≤ g.height → (a.intersected g).height ≤ g.height) := by
  have h1 : ¬ (a.x2 - a.x1 + 1 < 0) := by omega
  have h2 : ¬ (a.y2 - a.y1 + 1 < 0) := by omega
  unfold QRect.intersected
  rw [if_neg h1, if_neg h1, if_neg h2, if_neg h2]
  dsimp only
  by_cases hn : (a.isNull || g.isNull) = true
  · rw [if_pos hn]
    refine ⟨⟨by decide, by decide⟩, Or.inl rfl, ?_, ?_⟩ <;> intro h <;>
      simp only [QRect.width, QRect.height, QRect.null] at h ⊢ <;> omega
  · rw [if_neg hn]
    by_cases hx : (decide ((a.x1 : Int) > (if g.x2 - g.x1 + 1 < 0 then g.x1 else g.x2)) ||
        decide ((if g.x2 - g.x1 + 1 < 0 then g.x2 else g.x1) > a.x2)) = true
    · rw [if_pos hx]
      refine ⟨⟨by decide, by decide⟩, Or.inl rfl, ?_, ?_⟩ <;> intro h <;>
        simp only [QRect.width, QRect.height, QRect.null] at h ⊢ <;> omega
    · rw [if_neg hx]
      by_cases hy : (decide ((a.y1 : Int) > (if g.y2 - g.y1 + 1 < 0 then g.y1 else g.y2)) ||
          decide ((if g.y2 - g.y1 + 1 < 0 then g.y2 else g.y1) > a.y2)) = true
      · rw [if_pos hy]
        refine ⟨⟨by decide, by decide⟩, Or.inl rfl, ?_, ?_⟩ <;> intro h <;>
          simp only [QRect.width, QRect.height, QRect.null] at h ⊢ <;> omega
      · rw [if_neg hy]
        simp only [Bool.or_eq_true, decide_eq_true_eq, not_or, not_lt, gt_iff_lt] at hx hy
        obtain ⟨hx1, hx2⟩ := hx
        obtain ⟨hy1, hy2⟩ := hy
        simp only [QRect.width, QRect.height]
        by_cases hgx : g.x2 - g.x1 + 1 < 0 <;> by_cases hgy : g.y2 - g.y1 + 1 < 0 <;>
          by_cases hgx' : g.x2 < g.x1 - 1 <;> by_cases hgy' : g.y2 < g.y1 - 1 <;>
          simp only [hgx, hgy, hgx', hgy', if_true, if_false] at hx1 hx2 hy1 hy2 ⊢ <;>
          first
          | (exfalso; omega)
          | (refine ⟨⟨?_, ?_⟩, Or.inr ⟨?_, ?_, ?_, ?_⟩, ?_, ?_⟩ <;> omega)

/-- Claim C23 as stated fails: on a plane whose geometry is the inverted rectangle
`QRect(10, 0, -9, 10)` of width `-9`, a move to `(10, 5)` with the anchor `(0, 0)`
makes the selection `(0, 0)-(10, 5)` of width 11, which exceeds the width of the
plane. -/
theorem move_on_inverted_geometry_exceeds_width :
    invertedPlaneSelecting.rubberBand.isSome = true ∧
    invertedPlaneSelecting.geometry.width = -9 ∧
    (invertedPlaneSelecting.mouseMoveEvent ⟨MouseButton.NoButton, ⟨10, 5⟩⟩).plane.rubberBand
      = some ⟨0, 0, 10, 5⟩ ∧
    (QRect.mk 0 0 10 5).width = 11 ∧
    ¬ ((QRect.mk 0 0 10 5).width ≤ invertedPlaneSelecting.geometry.width) := by
  refine ⟨rfl, by decide, ?_, by decide, by decide⟩
  rw [mouseMoveEvent_of_selecting invertedPlaneSelecting _ _ rfl]
  decide

/-- Claim C23, amended: while a selection is active, after a pointer move to `pos`
the selection rectangle is the normalized rectangle spanned by the anchor and
`pos` intersected with the plane geometry, so every point of the selection
rectangle lies inside the plane geometry; its width does not exceed the width of
the plane when that is not negative, and its height does not exceed the height
of the plane when that is not negative. The move leaves the anchor, the zoom
factors, the center, the history and everything else unchanged. -/
theorem move_clips_selection (p : Plane) (band : QRect) (event : QMouseEvent)
    (hband : p.rubberBand = some band) :
    (p.mouseMoveEvent event).plane =
      { p with
        rubberBand :=
          some ((QRect.ofPoints p.rubberBandOrigin event.pos).normalized.intersected
            p.geometry) } ∧
    (p.mouseMoveEvent event).plane.rubberBandOrigin = p.rubberBandOrigin ∧
    (p.mouseMoveEvent event).plane.zoomFactorX = p.zoomFactorX ∧
    (p.mouseMoveEvent event).plane.zoomFactorY = p.zoomFactorY ∧
    (p.mouseMoveEvent event).plane.zoomCenter = p.zoomCenter ∧
    (p.mouseMoveEvent event).plane.rubberBandZoomConfigHistory
      = p.rubberBandZoomConfigHistory ∧
    (∀ selection, (p.mouseMoveEvent event).plane.rubberBand = some selection →
      (∀ pt, selection.contains pt = true → p.geometry.contains pt = true) ∧
      (0 ≤ p.geometry.width → selection.width ≤ p.geometry.width) ∧
      (0 ≤ p.geometry.height → selection.height ≤ p.geometry.height)) := by
  have hmove := mouseMoveEvent_of_selecting p band event hband
  rw [hmove]
  refine ⟨rfl, rfl, rfl, rfl, rfl, rfl, ?_⟩
  intro selection hsel
  have hsel2 : (QRect.ofPoints p.rubberBandOrigin event.pos).normalized.intersected
      p.geometry = selection := Option.some.inj hsel
  obtain ⟨hnx, hny⟩ := QRect.normalized_extent (QRect.ofPoints p.rubberBandOrigin event.pos)
  obtain ⟨⟨hex, hey⟩, hin, hw, hh⟩ := QRect.intersected_within
    (QRect.ofPoints p.rubberBandOrigin event.pos).normalized p.geometry hnx hny
  rw [hsel2] at hex hey hin hw hh
  refine ⟨?_, hw, hh⟩
  intro pt hpt
  rw [QRect.contains_iff selection pt hex hey] at hpt
  rw [QRect.contains_iff_swapped p.geometry pt]
  rcases hin with hnull | hin
  · rw [hnull] at hpt
    simp only [QRect.null] at hpt
    omega
  · omega

/-- Witness for claim C23 (amended): on the sample plane of 400 by 300 pixels a
press at `(100, 75)` and a move to `(500, 400)`, outside the plane: the selection
is clipped to `(100, 75)-(399, 299)`, its corner `(399, 299)` lies inside the
plane and it is no wider and no higher than the plane. -/
theorem move_clips_selection_witness :
    (samplePlane.mousePressEvent ⟨MouseButton.LeftButton, ⟨100, 75⟩⟩).plane.rubberBand
      = some (QRect.ofPointSize ⟨100, 75⟩ QSize.default) ∧
    (scenarioMove ⟨500, 400⟩).plane.rubberBand = some ⟨100, 75, 399, 299⟩ ∧
    samplePlane.geometry.contains ⟨399, 299⟩ = true ∧
    (QRect.mk 100 75 399 299).width ≤ samplePlane.geometry.width ∧
    (QRect.mk 100 75 399 299).height ≤ samplePlane.geometry.height :=
  ⟨rfl, rfl,
    ((move_clips_selection
      (samplePlane.mousePressEvent ⟨MouseButton.LeftButton, ⟨100, 75⟩⟩).plane
      (QRect.ofPointSize ⟨100, 75⟩ QSize.default) ⟨MouseButton.NoButton, ⟨500, 400⟩⟩
      rfl).2.2.2.2.2.2 ⟨100, 75, 399, 299⟩ rfl).1 ⟨399, 299⟩ (by decide),
    ((move_clips_selection
      (samplePlane.mousePressEvent ⟨MouseButton.LeftButton, ⟨100, 75⟩⟩).plane
      (QRect.ofPointSize ⟨100, 75⟩ QSize.default) ⟨MouseButton.NoButton, ⟨500, 400⟩⟩
      rfl).2.2.2.2.2.2 ⟨100, 75, 399, 299⟩ rfl).2.1 (by decide),
    ((move_clips_selection
      (samplePlane.mousePressEvent ⟨MouseButton.LeftButton, ⟨100, 75⟩⟩).plane
      (QRect.ofPointSize ⟨100, 75⟩ QSize.default) ⟨MouseButton.NoButton, ⟨500, 400⟩⟩
      rfl).2.2.2.2.2.2 ⟨100, 75, 399, 299⟩ rfl).2.2 (by decide)⟩

/-- The history entry that stores a zoom state. -/
theorem Plane.zoomParameters_eq (p : Plane) :
    p.zoomParameters
      = ZoomParameters.ofCenter p.zoomState.1 p.zoomState.2.1 p.zoomState.2.2 := rfl

/-- Moves after the start of a selection keep the selection active and leave the
zoom state, the history and the zooming switch alone. -/
theorem Plane.moves_keep (positions : List QPoint) (p : Plane)
    (hsel : p.rubberBand.isSome = true) :
    (positions.foldl (fun q pos => (q.mouseMoveEvent ⟨MouseButton.NoButton, pos⟩).plane)
        p).rubberBand.isSome = true ∧
    (positions.foldl (fun q pos => (q.mouseMoveEvent ⟨MouseButton.NoButton, pos⟩).plane)
        p).zoomParameters = p.zoomParameters ∧
    (positions.foldl (fun q pos => (q.mouseMoveEvent ⟨MouseButton.NoButton, pos⟩).plane)
        p).rubberBandZoomConfigHistory = p.rubberBandZoomConfigHistory ∧
    (positions.foldl (fun q pos => (q.mouseMoveEvent ⟨MouseButton.NoButton, pos⟩).plane)
        p).enableRubberBandZooming = p.enableRubberBandZooming := by
  induction positions generalizing p with
  | nil => exact ⟨hsel, rfl, rfl, rfl⟩
  | cons pos rest ih =>
    obtain ⟨band, hband⟩ := Option.isSome_iff_exists.mp hsel
    have hmove := mouseMoveEvent_of_selecting p band ⟨MouseButton.NoButton, pos⟩ hband
    have hnext := ih (p.mouseMoveEvent ⟨MouseButton.NoButton, pos⟩).plane
      (by rw [hmove]; rfl)
    rw [hmove] at hnext
    rw [List.foldl_cons, hmove]
    exact hnext

/-- With zooming enabled, one gesture pushes the zoom state it started from and
leaves zooming enabled. -/
theorem Plane.gesture_history (p : Plane) (g : Gesture)
    (hen : p.enableRubberBandZooming = true) :
    (p.gesture g).rubberBandZoomConfigHistory
      = ZoomParameters.ofCenter p.zoomFactorX p.zoomFactorY p.zoomCenter
          :: p.rubberBandZoomConfigHistory ∧
    (p.gesture g).enableRubberBandZooming = true := by
  have hpress := mousePressEvent_left_begin p g.press (Or.inl hen)
  obtain ⟨hsel, hzoom, hhist, hen2⟩ := Plane.moves_keep g.moves
    (p.mousePressEvent ⟨MouseButton.LeftButton, g.press⟩).plane (by rw [hpress]; rfl)
  obtain ⟨band, hband⟩ := Option.isSome_iff_exists.mp hsel
  obtain ⟨hpush, hen3⟩ := mouseReleaseEvent_history _ band
    ⟨MouseButton.LeftButton, g.release⟩ hband
  unfold Plane.gesture
  rw [hpush, hen3, hzoom, hhist, hen2, hpress]
  exact ⟨rfl, hen⟩

/-- With zooming enabled, a sequence of gestures pushes the zoom states its
gestures started from, the latest on top, and leaves zooming enabled. -/
theorem Plane.gestures_history (gs : List Gesture) (p : Plane)
    (hen : p.enableRubberBandZooming = true) :
    (p.gestures gs).rubberBandZoomConfigHistory
      = ((p.zoomStatesBefore gs).reverse.map
          (fun s => ZoomParameters.ofCenter s.1 s.2.1 s.2.2))
        ++ p.rubberBandZoomConfigHistory ∧
    (p.gestures gs).enableRubberBandZooming = true := by
  induction gs generalizing p with
  | nil => exact ⟨rfl, hen⟩
  | cons g rest ih =>
    obtain ⟨hpush, hen2⟩ := Plane.gesture_history p g hen
    obtain ⟨hrest, hen3⟩ := ih (p.gesture g) hen2
    refine ⟨?_, hen3⟩
    show ((p.gesture g).gestures rest).rubberBandZoomConfigHistory = _
    rw [hrest, hpush]
    simp [Plane.zoomStatesBefore, Plane.zoomState]

/-- With zooming enabled and a history that starts with the entries for the zoom
states `states`, as many right-button presses put the plane into these zoom
states in order and leave the rest of the history. -/
theorem Plane.undos_history (states : List (ℚ × ℚ × QPointF)) (p : Plane)
    (positions : List QPoint) (older : List ZoomParameters)
    (hen : p.enableRubberBandZooming = true)
    (hhist : p.rubberBandZoomConfigHistory
      = states.map (fun s => ZoomParameters.ofCenter s.1 s.2.1 s.2.2) ++ older)
    (hlen : positions.length = states.length) :
    p.undoTrace positions = states ∧
    (p.undos positions).rubberBandZoomConfigHistory = older := by
  induction states generalizing p positions with
  | nil =>
    cases positions with
    | nil => exact ⟨rfl, hhist⟩
    | cons pos rest => simp at hlen
  | cons st more ih =>
    cases positions with
    | nil => simp at hlen
    | cons pos rest =>
      have hpop := mousePressEvent_right_pop p
        (ZoomParameters.ofCenter st.1 st.2.1 st.2.2)
        (more.map (fun s => ZoomParameters.ofCenter s.1 s.2.1 s.2.2) ++ older) pos hen hhist
      have hundo : p.undo pos =
          { p with
            zoomFactorX := st.1
            zoomFactorY := st.2.1
            zoomCenter := st.2.2
            rubberBandZoomConfigHistory :=
              more.map (fun s => ZoomParameters.ofCenter s.1 s.2.1 s.2.2) ++ older } := by
        unfold Plane.undo
        rw [hpop]
        rfl
      obtain ⟨htrace, hrest⟩ := ih (p.undo pos) rest (by rw [hundo]; exact hen)
        (by rw [hundo]) (by simpa using hlen)
      constructor
      · show (p.undo pos).zoomState :: (p.undo pos).undoTrace rest = st :: more
        rw [htrace, hundo]
        rfl
      · show ((p.undo pos).undos rest).rubberBandZoomConfigHistory = older
        exact hrest

/-- The last zoom state of the trace of right-button presses is the zoom state of
the plane after all of them. -/
theorem Plane.undoTrace_getLast (positions : List QPoint) (p : Plane)
    (hne : positions ≠ []) :
    (p.undoTrace positions).getLast? = some (p.undos positions).zoomState := by
  induction positions generalizing p with
  | nil => exact absurd rfl hne
  | cons pos rest ih =>
    cases rest with
    | nil => rfl
    | cons pos2 rest2 =>
      have h := ih (p.undo pos) (by simp)
      show ((p.undo pos).zoomState :: (p.undo pos).undoTrace (pos2 :: rest2)).getLast? = _
      rw [show (p.undo pos).undoTrace (pos2 :: rest2)
        = ((p.undo pos).undo pos2).zoomState :: ((p.undo pos).undo pos2).undoTrace rest2
        from rfl, List.getLast?_cons_cons]
      exact h

/-- Claim C26: with rubber-band zooming enabled, for every initial plane with zoom
state `s0 = (factorX, factorY, center)` and history `h0` and every sequence of
`k` rubber-band gestures passing through the zoom states `s0, s1, ..., sk`
(every gesture, so also every one with a selection of positive size), the
history afterwards holds the entries for `s(k-1), ..., s0` on top of `h0`; the
following `k` right-button presses put zoom factor X, zoom factor Y and the
center of the plane into the states `s(k-1), ..., s1, s0` in that order, and the
history is `h0` again at the end. -/
theorem multi_level_undo (p0 : Plane) (gs : List Gesture) (positions : List QPoint)
    (hen : p0.enableRubberBandZooming = true) (hlen : positions.length = gs.length) :
    (p0.gestures gs).rubberBandZoomConfigHistory
      = ((p0.zoomStatesBefore gs).reverse.map
          (fun s => (⟨s.1, s.2.1, s.2.2.x, s.2.2.y⟩ : ZoomParameters)))
        ++ p0.rubberBandZoomConfigHistory ∧
    (p0.gestures gs).undoTrace positions = (p0.zoomStatesBefore gs).reverse ∧
    (positions ≠ [] →
      ((p0.gestures gs).undos positions).zoomFactorX = p0.zoomFactorX ∧
      ((p0.gestures gs).undos positions).zoomFactorY = p0.zoomFactorY ∧
      ((p0.gestures gs).undos positions).zoomCenter = p0.zoomCenter) ∧
    ((p0.gestures gs).undos positions).rubberBandZoomConfigHistory
      = p0.rubberBandZoomConfigHistory := by
  obtain ⟨hhist, hen2⟩ := Plane.gestures_history gs p0 hen
  have hlen2 : (p0.zoomStatesBefore gs).reverse.length = gs.length := by
    rw [List.length_reverse]
    clear hhist hen2 hlen hen
    induction gs generalizing p0 with
    | nil => rfl
    | cons g rest ih => simp [Plane.zoomStatesBefore, ih]
  obtain ⟨htrace, hrest⟩ := Plane.undos_history (p0.zoomStatesBefore gs).reverse
    (p0.gestures gs) positions p0.rubberBandZoomConfigHistory hen2 hhist
    (by rw [hlen, hlen2])
  refine ⟨hhist, htrace, ?_, hrest⟩
  intro hne
  have hlast := Plane.undoTrace_getLast positions (p0.gestures gs) hne
  rw [htrace, List.getLast?_reverse] at hlast
  cases gs with
  | nil =>
    cases positions with
    | nil => exact absurd rfl hne
    | cons pos rest => simp at hlen
  | cons g rest =>
    simp only [Plane.zoomStatesBefore, List.head?_cons, Option.some.injEq] at hlast
    have h1 := congrArg (fun s : ℚ × ℚ × QPointF => s.1) hlast
    have h2 := congrArg (fun s : ℚ × ℚ × QPointF => s.2.1) hlast
    have h3 := congrArg (fun s : ℚ × ℚ × QPointF => s.2.2) hlast
    exact ⟨h1.symm, h2.symm, h3.symm⟩

/-- Witness for claim C26: two gestures on the sample plane and two right-button
presses; zoom factor X and the history are those of the start again. -/
theorem multi_level_undo_witness :
    samplePlane.enableRubberBandZooming = true ∧
    ([⟨0, 0⟩, ⟨0, 0⟩] : List QPoint).length
      = ([⟨⟨100, 75⟩, [⟨299, 224⟩], ⟨299, 224⟩⟩,
          ⟨⟨10, 10⟩, [⟨50, 50⟩, ⟨200, 100⟩], ⟨200, 100⟩⟩] : List Gesture).length ∧
    ((samplePlane.gestures
        [⟨⟨100, 75⟩, [⟨299, 224⟩], ⟨299, 224⟩⟩,
          ⟨⟨10, 10⟩, [⟨50, 50⟩, ⟨200, 100⟩], ⟨200, 100⟩⟩]).undos
        [⟨0, 0⟩, ⟨0, 0⟩]).zoomFactorX = samplePlane.zoomFactorX ∧
    ((samplePlane.gestures
        [⟨⟨100, 75⟩, [⟨299, 224⟩], ⟨299, 224⟩⟩,
          ⟨⟨10, 10⟩, [⟨50, 50⟩, ⟨200, 100⟩], ⟨200, 100⟩⟩]).undos
        [⟨0, 0⟩, ⟨0, 0⟩]).rubberBandZoomConfigHistory
      = samplePlane.rubberBandZoomConfigHistory :=
  ⟨rfl, rfl,
    ((multi_level_undo samplePlane
      [⟨⟨100, 75⟩, [⟨299, 224⟩], ⟨299, 224⟩⟩,
        ⟨⟨10, 10⟩, [⟨50, 50⟩, ⟨200, 100⟩], ⟨200, 100⟩⟩]
      [⟨0, 0⟩, ⟨0, 0⟩] rfl rfl).2.2.1 (by simp)).1,
    (multi_level_undo samplePlane
      [⟨⟨100, 75⟩, [⟨299, 224⟩], ⟨299, 224⟩⟩,
        ⟨⟨10, 10⟩, [⟨50, 50⟩, ⟨200, 100⟩], ⟨200, 100⟩⟩]
      [⟨0, 0⟩, ⟨0, 0⟩] rfl rfl).2.2.2⟩

end KDChart
